import Mathlib

/-!
# Verification of the CreepyAI collector core against its specification

This development shallowly embeds the parts of the CreepyAI-25 repository
that its specification talks about:

* the JSON-shaped values that Facebook / Instagram data exports contain,
  together with the handful of Python operations the collectors apply to
  them (`dict.get`, `in`, truthiness, `float(...)`, `str(...)`, slicing);
* `FacebookPlugin.collect_locations` (location-history records and post
  records) and `InstagramPlugin.collect_locations` (media records),
  including their timestamp / coordinate / text extraction heuristics and
  their per-file `try/except` error containment;
* the `InputPlugin` base class's `error_count` bookkeeping;
* the specification's `AggregationEngine.merge` (not present in the
  source tree; modelled from the spec).

Python exceptions are modelled with `Except PyErr`; a Python `None` is the
JSON `null` value.  `datetime` values are modelled by a naive/aware
calendar record; `datetime.fromtimestamp` is modelled in UTC.
-/

/-- Kinds of Python exception that the embedded code can raise. -/
inductive PyErr where
  | typeError
  | valueError
  | attributeError
  | keyError
  deriving DecidableEq, Repr

/-- JSON-shaped Python values as produced by `json.load`.  Python `None`
is `Json.null`; ints and floats are kept distinct because the collectors
branch on `isinstance(x, int)`. -/
inductive Json where
  | null
  | bool (b : Bool)
  | int (z : ℤ)
  | float (q : ℚ)
  | str (s : String)
  | arr (elems : List Json)
  | obj (fields : List (String × Json))

namespace Json

/-- Python truthiness of a value. -/
def truthy : Json → Bool
  | .null => false
  | .bool b => b
  | .int z => z ≠ 0
  | .float q => q ≠ 0
  | .str s => s ≠ ""
  | .arr l => !l.isEmpty
  | .obj l => !l.isEmpty

/-- Is the value a Python `dict`? -/
def isObj : Json → Bool
  | .obj _ => true
  | _ => false

/-- Is the value a Python `str`? -/
def isStr : Json → Bool
  | .str _ => true
  | _ => false

/-- `k in d` for a value statically known to be a dict (`Json.obj`);
`false` on any non-dict (the embedded code only uses this behind an
`isinstance(item, dict)` guard or equivalent). -/
def hasKey (j : Json) (k : String) : Bool :=
  match j with
  | .obj fields => fields.any (fun p => p.1 = k)
  | _ => false

/-- `d[k]` for a dict whose key is known to be present; `Json.null` when
the key is absent or the value is not a dict (only used behind `in` /
`isinstance` guards, where this cannot happen). -/
def get (j : Json) (k : String) : Json :=
  match j with
  | .obj fields =>
    match fields.find? (fun p => p.1 = k) with
    | some p => p.2
    | none => .null
  | _ => .null

/-- Python `x.get(k)`: `AttributeError` when `x` is not a dict, else the
value (`null`, i.e. Python `None`, when the key is absent). -/
def dictGet (j : Json) (k : String) : Except PyErr Json :=
  match j with
  | .obj _ => .ok (j.get k)
  | _ => .error .attributeError

/-- Python `k in x` for a string key `k`: key test on dicts, substring
test on strings, membership test on lists, `TypeError` otherwise. -/
def pyIn (k : String) (j : Json) : Except PyErr Bool :=
  match j with
  | .obj _ => .ok (j.hasKey k)
  | .str s => .ok ((s.splitOn k).length > 1)
  | .arr l => .ok (l.any (fun e => match e with | .str s => s = k | _ => false))
  | _ => .error .typeError

/-- Python `x[k]` for a string key `k`: dict lookup (`KeyError` when the
key is absent), `TypeError` on every other kind of value. -/
def pyIndex (j : Json) (k : String) : Except PyErr Json :=
  match j with
  | .obj fields =>
    match fields.find? (fun p => p.1 = k) with
    | some p => .ok p.2
    | none => .error .keyError
  | _ => .error .typeError

end Json

/-! ## Datetimes

Python `datetime` values, as the collectors use them: a naive or aware
calendar timestamp.  `tz` is the UTC offset in minutes (`none` = naive).
`datetime.fromtimestamp` is modelled in UTC (the model's local time zone).
-/

/-- A Python `datetime` value. -/
structure DateTime where
  year : ℕ
  month : ℕ
  day : ℕ
  hour : ℕ
  minute : ℕ
  second : ℕ
  usec : ℕ
  tz : Option ℤ
  deriving DecidableEq, Repr

/-- Gregorian leap year. -/
def isLeap (y : ℕ) : Bool :=
  y % 4 = 0 && (y % 100 ≠ 0 || y % 400 = 0)

/-- Days in a month of the proleptic Gregorian calendar. -/
def daysInMonth (y m : ℕ) : ℕ :=
  if m = 2 then (if isLeap y then 29 else 28)
  else if m = 4 || m = 6 || m = 9 || m = 11 then 30
  else 31

/-- Civil date from days since the Unix epoch (standard civil-from-days
computation on the proleptic Gregorian calendar). -/
def civilFromDays (z : ℤ) : ℤ × ℤ × ℤ :=
  let z' := z + 719468
  let era := z'.fdiv 146097
  let doe := z' - era * 146097
  let yoe := (doe - doe / 1460 + doe / 36524 - doe / 146096) / 365
  let y := yoe + era * 400
  let doy := doe - (365 * yoe + yoe / 4 - yoe / 100)
  let mp := (5 * doy + 2) / 153
  let d := doy - (153 * mp + 2) / 5 + 1
  let m := mp + (if mp < 10 then 3 else -9)
  (y + (if m ≤ 2 then 1 else 0), m, d)

/-- Days since the Unix epoch from a civil date (inverse of
`civilFromDays` on valid dates). -/
def daysFromCivil (y m d : ℤ) : ℤ :=
  let y' := y - (if m ≤ 2 then 1 else 0)
  let era := y'.fdiv 400
  let yoe := y' - era * 400
  let mp := if m > 2 then m - 3 else m + 9
  let doy := (153 * mp + 2) / 5 + d - 1
  let doe := yoe * 365 + yoe / 4 - yoe / 100 + doy
  era * 146097 + doe - 719468

/-- `datetime.fromtimestamp(z)` for an integer `z`, modelled in UTC; a
`ValueError` when the resulting year falls outside `datetime`'s
`[1, 9999]` range (that error is caught by the collectors' handlers). -/
def epochToDateTime (z : ℤ) : Except PyErr DateTime :=
  let days := z.fdiv 86400
  let secs := (z.fmod 86400).toNat
  let c := civilFromDays days
  if 1 ≤ c.1 ∧ c.1 ≤ 9999 then
    .ok ⟨c.1.toNat, c.2.1.toNat, c.2.2.toNat, secs / 3600, secs % 3600 / 60, secs % 60, 0, none⟩
  else .error .valueError

/-- Seconds since the epoch of the naive calendar fields. -/
def dtEpochSec (t : DateTime) : ℤ :=
  daysFromCivil t.year t.month t.day * 86400 + t.hour * 3600 + t.minute * 60 + t.second

/-- Python comparison of two naive datetimes: lexicographic on the
calendar fields. -/
def dtCmpNaive (a b : DateTime) : Ordering :=
  (compare a.year b.year).then
    ((compare a.month b.month).then
      ((compare a.day b.day).then
        ((compare a.hour b.hour).then
          ((compare a.minute b.minute).then
            ((compare a.second b.second).then (compare a.usec b.usec))))))

/-- Python comparison of two `datetime`s: naive pairs compare by fields,
aware pairs compare as instants, and a mixed pair raises `TypeError`. -/
def dtCmp (a b : DateTime) : Except PyErr Ordering :=
  match a.tz, b.tz with
  | none, none => .ok (dtCmpNaive a b)
  | some x, some y =>
    .ok ((compare (dtEpochSec a - x * 60) (dtEpochSec b - y * 60)).then
      (compare a.usec b.usec))
  | _, _ => .error .typeError

/-- The date-to half of the collectors' date filter:
`if date_to and timestamp > date_to: continue`. -/
def dateFilterKeepTo (dto : Option DateTime) (ts : DateTime) : Except PyErr Bool :=
  match dto with
  | none => .ok true
  | some t =>
    match dtCmp ts t with
    | .error e => .error e
    | .ok .gt => .ok false
    | .ok _ => .ok true

/-- The collectors' date filter (`collect_locations` retention):
`if date_from and timestamp < date_from: continue` followed by the
date-to test; `true` means the point is kept. -/
def dateFilterKeep (df dto : Option DateTime) (ts : DateTime) : Except PyErr Bool :=
  match df with
  | none => dateFilterKeepTo dto ts
  | some f =>
    match dtCmp ts f with
    | .error e => .error e
    | .ok .lt => .ok false
    | .ok _ => dateFilterKeepTo dto ts

/-! ## Date-time string parsing

The Facebook location-history extractor tries, for a string value, the
`strptime` formats `"%Y-%m-%dT%H:%M:%S%z"`, `"%Y-%m-%dT%H:%M:%S"` and
`"%Y-%m-%d %H:%M:%S"` in order, then falls back to
`datetime.fromisoformat(s.replace("Z", "+00:00"))`.  All four grammars
are modelled over a shared decomposition of the candidate string into
digit runs and literal separators, which is faithful because every
format delimits its digit fields with the same non-digit literals.
The `fromisoformat` model covers Python 3.11's extended format
(zero-padded fields, any single separator character, optional seconds,
optional fraction, optional offset); `strptime`'s numeric fields accept
one to two digits (up to four for the year). -/

/-- Is this character an ASCII digit? -/
def isDig (c : Char) : Bool := c.isDigit

/-- Take the leading digit run of a character list, returning the run
and the remainder. -/
def munch : List Char → List Char × List Char
  | [] => ([], [])
  | c :: cs =>
    if isDig c then
      let p := munch cs
      (c :: p.1, p.2)
    else ([], c :: cs)

/-- Numeric value of a digit run. -/
def digitsToNat (r : List Char) : ℕ :=
  r.foldl (fun n c => 10 * n + (c.toNat - '0'.toNat)) 0

/-- The time-of-day part of the shared decomposition: separator
character, hour and minute digit runs, and an optional seconds run. -/
structure TimeRaw where
  sep : Char
  hs : List Char
  mis : List Char
  ssPart : Option (List Char)
  deriving DecidableEq, Repr

/-- The shared decomposition of a date-time string: year, month and day
digit runs, an optional time part, and the remaining characters
(fraction and/or UTC offset). -/
structure RawStamp where
  ys : List Char
  ms : List Char
  ds : List Char
  timePart : Option TimeRaw
  rest : List Char
  deriving DecidableEq, Repr

/-- Decompose a candidate string into digit runs and literal separators:
`Y-M-D`, optionally followed by one separator character and `H:M` with
an optional `:S`, then the remainder.  Every modelled date-time grammar
is a refinement of this shape. -/
def coreParse (s : List Char) : Option RawStamp :=
  let p1 := munch s
  if p1.1.isEmpty then none else
  match p1.2 with
  | '-' :: r2 =>
    let p2 := munch r2
    if p2.1.isEmpty then none else
    match p2.2 with
    | '-' :: r4 =>
      let p3 := munch r4
      if p3.1.isEmpty then none else
      match p3.2 with
      | [] => some ⟨p1.1, p2.1, p3.1, none, []⟩
      | sep :: r6 =>
        let p4 := munch r6
        if p4.1.isEmpty then none else
        match p4.2 with
        | ':' :: r8 =>
          let p5 := munch r8
          if p5.1.isEmpty then none else
          match p5.2 with
          | ':' :: r10 =>
            let p6 := munch r10
            if p6.1.isEmpty then none
            else some ⟨p1.1, p2.1, p3.1, some ⟨sep, p4.1, p5.1, some p6.1⟩, p6.2⟩
          | r9 => some ⟨p1.1, p2.1, p3.1, some ⟨sep, p4.1, p5.1, none⟩, r9⟩
        | _ => none
    | _ => none
  | _ => none

/-- Parse a signed UTC offset: `±HH:MM`, `±HHMM` or `±HH`, with the
hour below 24 and the minute below 60; the result is in minutes. -/
def parseOff (r : List Char) : Option ℤ :=
  match r with
  | sg :: rest' =>
    if sg = '+' ∨ sg = '-' then
      let sign : ℤ := if sg = '-' then -1 else 1
      match rest' with
      | [h1, h2, ':', m1, m2] =>
        if isDig h1 && isDig h2 && isDig m1 && isDig m2 &&
            digitsToNat [h1, h2] ≤ 23 && digitsToNat [m1, m2] ≤ 59 then
          some (sign * (digitsToNat [h1, h2] * 60 + digitsToNat [m1, m2]))
        else none
      | [h1, h2, m1, m2] =>
        if isDig h1 && isDig h2 && isDig m1 && isDig m2 &&
            digitsToNat [h1, h2] ≤ 23 && digitsToNat [m1, m2] ≤ 59 then
          some (sign * (digitsToNat [h1, h2] * 60 + digitsToNat [m1, m2]))
        else none
      | [h1, h2] =>
        if isDig h1 && isDig h2 && digitsToNat [h1, h2] ≤ 23 then
          some (sign * (digitsToNat [h1, h2] * 60))
        else none
      | _ => none
    else none
  | [] => none

/-- Parse the trailing offset token: empty (naive), a literal `Z`
(UTC), or a signed offset. -/
def parseTzTok (r : List Char) : Option (Option ℤ) :=
  match r with
  | [] => some none
  | ['Z'] => some (some 0)
  | _ => (parseOff r).map some

/-- Split an optional leading fraction (`.` plus one to six digits) off
the remainder, converting it to microseconds. -/
def fracSplit : List Char → Option (ℕ × List Char)
  | '.' :: r =>
    let p := munch r
    if p.1.isEmpty || p.1.length > 6 then none
    else some (digitsToNat p.1 * 10 ^ (6 - p.1.length), p.2)
  | r => some (0, r)

/-- Are the date fields a valid `datetime` date? -/
def validDate (y m d : ℕ) : Bool :=
  1 ≤ y && y ≤ 9999 && 1 ≤ m && m ≤ 12 && 1 ≤ d && d ≤ daysInMonth y m

/-- Are the clock fields a valid `datetime` time? -/
def validClock (h mi s : ℕ) : Bool :=
  h ≤ 23 && mi ≤ 59 && s ≤ 59

/-- One `strptime` format of the shape `%Y-%m-%d`/`sep`/`%H:%M:%S`,
optionally with a trailing `%z`, evaluated on the shared
decomposition. -/
def strptimeYmdHms (sepWanted : Char) (withTz : Bool) (c : RawStamp) : Option DateTime :=
  match c.timePart with
  | none => none
  | some t =>
    match t.ssPart with
    | none => none
    | some sscs =>
      if t.sep = sepWanted && c.ys.length ≤ 4 && c.ms.length ≤ 2 && c.ds.length ≤ 2 &&
          t.hs.length ≤ 2 && t.mis.length ≤ 2 && sscs.length ≤ 2 then
        let y := digitsToNat c.ys
        let m := digitsToNat c.ms
        let d := digitsToNat c.ds
        let h := digitsToNat t.hs
        let mi := digitsToNat t.mis
        let s := digitsToNat sscs
        if validDate y m d && validClock h mi s then
          if withTz then
            match parseTzTok c.rest with
            | some tz => some ⟨y, m, d, h, mi, s, 0, tz⟩
            | none => none
          else if c.rest.isEmpty then some ⟨y, m, d, h, mi, s, 0, none⟩ else none
        else none
      else none

/-- Python 3.11 `datetime.fromisoformat` (extended format), evaluated
on the shared decomposition. -/
def isoFromCore (c : RawStamp) : Option DateTime :=
  if c.ys.length = 4 && c.ms.length = 2 && c.ds.length = 2 then
    let y := digitsToNat c.ys
    let m := digitsToNat c.ms
    let d := digitsToNat c.ds
    if validDate y m d then
      match c.timePart with
      | none => if c.rest.isEmpty then some ⟨y, m, d, 0, 0, 0, 0, none⟩ else none
      | some t =>
        if t.hs.length = 2 && t.mis.length = 2 then
          let h := digitsToNat t.hs
          let mi := digitsToNat t.mis
          match t.ssPart with
          | none =>
            if validClock h mi 0 then
              match parseTzTok c.rest with
              | some tz => some ⟨y, m, d, h, mi, 0, 0, tz⟩
              | none => none
            else none
          | some sscs =>
            if sscs.length = 2 then
              let s := digitsToNat sscs
              if validClock h mi s then
                match fracSplit c.rest with
                | none => none
                | some (us, rest') =>
                  match parseTzTok rest' with
                  | some tz => some ⟨y, m, d, h, mi, s, us, tz⟩
                  | none => none
              else none
            else none
        else none
    else none
  else none

/-- The extractor's `strptime` fallback chain on the shared
decomposition: `"%Y-%m-%dT%H:%M:%S%z"`, `"%Y-%m-%dT%H:%M:%S"`,
`"%Y-%m-%d %H:%M:%S"`, first success wins. -/
def strptimeChainCore (c : RawStamp) : Option DateTime :=
  (strptimeYmdHms 'T' true c).orElse fun _ =>
    (strptimeYmdHms 'T' false c).orElse fun _ =>
      strptimeYmdHms ' ' false c

/-- The `strptime` fallback chain on a raw character list. -/
def strptimeChain (s : List Char) : Option DateTime :=
  (coreParse s).bind strptimeChainCore

/-- `s.replace("Z", "+00:00")` on a character list. -/
def replaceZ : List Char → List Char
  | [] => []
  | c :: r =>
    if c = 'Z' then '+' :: '0' :: '0' :: ':' :: '0' :: '0' :: replaceZ r
    else c :: replaceZ r

/-- `datetime.fromisoformat(s.replace("Z", "+00:00"))`, returning
`none` in place of the `ValueError` the callers catch. -/
def isoZParse (s : List Char) : Option DateTime :=
  (coreParse (replaceZ s)).bind isoFromCore

/-- The Facebook location-history extractor's full string strategy:
the three `strptime` formats first, then the `fromisoformat`
fallback (source order). -/
def parseTimeStrFB (s : String) : Option DateTime :=
  (strptimeChain s.data).orElse fun _ => isoZParse s.data

/-- Modelled from the spec: the claimed order of string strategies for
`extract_timestamp` — the ISO-8601 parse (with and without a trailing
`Z`) before the small fixed set of date-time patterns. -/
def parseTimeStrSpecOrder (s : String) : Option DateTime :=
  (isoZParse s.data).orElse fun _ => strptimeChain s.data

/-! ## Python value coercions -/

/-- `float(s)` for an unsigned decimal literal (`"12"`, `"12."`,
`".5"`, `"12.5"`); the model covers the plain decimal forms the
collectors can meet (no exponents, no `inf`/`nan`). -/
def parseUnsignedFloat (t : List Char) : Option ℚ :=
  let ip := munch t
  match ip.2 with
  | [] => if ip.1.isEmpty then none else some (digitsToNat ip.1)
  | '.' :: r2 =>
    let fp := munch r2
    if fp.2.isEmpty && !(ip.1.isEmpty && fp.1.isEmpty) then
      some ((digitsToNat ip.1 : ℚ) + (digitsToNat fp.1 : ℚ) / 10 ^ fp.1.length)
    else none
  | _ => none

/-- Python `s.strip()` as a character list. -/
def pyStrip (s : String) : List Char :=
  ((s.data.dropWhile Char.isWhitespace).reverse.dropWhile Char.isWhitespace).reverse

/-- `float(s)` for a string: strip surrounding whitespace, optional
sign, decimal literal; `none` in place of the `ValueError`. -/
def parseFloatStr (s : String) : Option ℚ :=
  match pyStrip s with
  | '+' :: t => parseUnsignedFloat t
  | '-' :: t => (parseUnsignedFloat t).map Neg.neg
  | t => parseUnsignedFloat t

/-- Python `float(x)`: numbers and booleans convert, strings parse
(`ValueError` on failure), everything else is a `TypeError`. -/
def pyFloat : Json → Except PyErr ℚ
  | .bool b => .ok (if b then 1 else 0)
  | .int z => .ok (z : ℚ)
  | .float q => .ok q
  | .str s =>
    match parseFloatStr s with
    | some q => .ok q
    | none => .error .valueError
  | _ => .error .typeError

/-- Python `str(x)`.  Container reprs are abbreviated (their exact
text never matters to the collectors, which only truncate them). -/
def pyStr : Json → String
  | .null => "None"
  | .bool true => "True"
  | .bool false => "False"
  | .int z => toString z
  | .float q => toString q
  | .str s => s
  | .arr _ => "[...]"
  | .obj _ => "{...}"

/-- `s[:n]` on a string (slicing counts characters, as in Python). -/
def pyTake (s : String) (n : ℕ) : String := ⟨s.data.take n⟩

/-- `x[:n]` as the Instagram collector applies it to a caption value:
a string is truncated by characters; a list is sliced to its first
`n` elements, each element kept whole; any other caption value
(`None`, numbers, booleans, dicts) raises `TypeError`. -/
def pySliceStr (j : Json) (n : ℕ) : Except PyErr Json :=
  match j with
  | .str s => .ok (.str (pyTake s n))
  | .arr l => .ok (.arr (l.take n))
  | _ => .error .typeError

/-- Is the value Python `None`? -/
def Json.isNull : Json → Bool
  | .null => true
  | _ => false

/-! ## The canonical location record

The fields are exactly what the collectors pass to the `LocationPoint`
constructor.  The coordinates are kept as the raw values passed
(`FacebookPlugin` converts them with `float(...)` first; the Instagram
collector passes them unconverted), and so is the context: the
Facebook collectors always pass a string, while the Instagram
caption slice can also pass a list. -/

/-- One location record, as constructed by the collectors. -/
structure LocationPoint where
  latitude : Json
  longitude : Json
  timestamp : DateTime
  source : String
  context : Json

/-! ## FacebookPlugin.collect_locations — location-history records -/

/-- The timestamp key loop of the Facebook location-history extractor,
over the remaining candidate keys.  For the first present key: an
`int` value (Python `bool` included) goes through
`datetime.fromtimestamp` — whose `ValueError` is caught, moving on to
the next key; a string value runs the `strptime`/`fromisoformat`
chain and then stops whether or not it matched; any other value stops
with no timestamp. -/
def extractTimestampFBGo (item : Json) : List String → Option DateTime
  | [] => none
  | k :: ks =>
    if item.hasKey k then
      match item.get k with
      | .int z =>
        match epochToDateTime z with
        | .ok t => some t
        | .error _ => extractTimestampFBGo item ks
      | .bool b =>
        match epochToDateTime (if b then 1 else 0) with
        | .ok t => some t
        | .error _ => extractTimestampFBGo item ks
      | .str s => parseTimeStrFB s
      | _ => none
    else extractTimestampFBGo item ks

/-- Timestamp extraction of the Facebook location-history collector
(keys `timestamp`, `time`, `date`, `creation_timestamp`). -/
def extractTimestampFB (item : Json) : Option DateTime :=
  extractTimestampFBGo item ["timestamp", "time", "date", "creation_timestamp"]

/-- The same key loop with the specification's claimed string-strategy
order (ISO-8601 before the fixed patterns); used to compare the
source's order against the claimed one. -/
def extractTimestampFBSpecGo (item : Json) : List String → Option DateTime
  | [] => none
  | k :: ks =>
    if item.hasKey k then
      match item.get k with
      | .int z =>
        match epochToDateTime z with
        | .ok t => some t
        | .error _ => extractTimestampFBSpecGo item ks
      | .bool b =>
        match epochToDateTime (if b then 1 else 0) with
        | .ok t => some t
        | .error _ => extractTimestampFBSpecGo item ks
      | .str s => parseTimeStrSpecOrder s
      | _ => none
    else extractTimestampFBSpecGo item ks

/-- Modelled from the spec: `extract_timestamp` with the claimed
strategy order over the same candidate keys. -/
def extractTimestampFBSpec (item : Json) : Option DateTime :=
  extractTimestampFBSpecGo item ["timestamp", "time", "date", "creation_timestamp"]

/-- Coordinate extraction of the Facebook location-history collector:
direct `latitude`/`longitude` keys, a dict `coordinate`, a dict
`place` holding `coordinate` (unguarded `.get` — raises
`AttributeError` when that value is not a dict) or a dict `location`,
or a dict `location` on the record itself.  Returns the raw candidate
values (`null` = Python `None`). -/
def extractCoordsFB (item : Json) : Except PyErr (Json × Json) :=
  if item.hasKey "latitude" && item.hasKey "longitude" then
    .ok (item.get "latitude", item.get "longitude")
  else if item.hasKey "coordinate" && (item.get "coordinate").isObj then
    let coord := item.get "coordinate"
    .ok (coord.get "latitude", coord.get "longitude")
  else if item.hasKey "place" && (item.get "place").isObj then
    let place := item.get "place"
    if place.hasKey "coordinate" then
      match (place.get "coordinate").dictGet "latitude" with
      | .error e => .error e
      | .ok la =>
        match (place.get "coordinate").dictGet "longitude" with
        | .error e => .error e
        | .ok lo => .ok (la, lo)
    else if place.hasKey "location" && (place.get "location").isObj then
      let loc := place.get "location"
      .ok (loc.get "latitude", loc.get "longitude")
    else .ok (.null, .null)
  else if item.hasKey "location" && (item.get "location").isObj then
    let loc := item.get "location"
    .ok (loc.get "latitude", loc.get "longitude")
  else .ok (.null, .null)

/-- The exact condition under which `extractCoordsFB` raises: no
direct coordinate pair, no dict `coordinate`, but a dict `place`
whose `coordinate` member is present and not a dict. -/
def coordsFBRaises (item : Json) : Bool :=
  !(item.hasKey "latitude" && item.hasKey "longitude") &&
  !(item.hasKey "coordinate" && (item.get "coordinate").isObj) &&
  (item.hasKey "place" && (item.get "place").isObj) &&
  (item.get "place").hasKey "coordinate" &&
  !((item.get "place").get "coordinate").isObj

/-- The name loop of the Facebook location-history extractor: for each
candidate key, a truthy value on the record itself, else the value
under a dict `place`. -/
def extractNameFBGo (item : Json) : List String → String
  | [] => ""
  | k :: ks =>
    if item.hasKey k && (item.get k).truthy then pyStr (item.get k)
    else if item.hasKey "place" && (item.get "place").isObj && (item.get "place").hasKey k then
      pyStr ((item.get "place").get k)
    else extractNameFBGo item ks

/-- Place-name extraction of the Facebook location-history collector
(keys `name`, `place_name`, `address`, `city`). -/
def extractNameFB (item : Json) : String :=
  extractNameFBGo item ["name", "place_name", "address", "city"]

/-- Processing of one Facebook location-history record: extraction,
the `latitude is not None and longitude is not None` retention test,
the default to `datetime.now()` for a missing timestamp, the
inclusive date filter, `float(...)` conversion at construction, and
`name[:200] if name else "Location"` as context. -/
def processItemFB (now : DateTime) (df dto : Option DateTime) (item : Json) :
    Except PyErr (Option LocationPoint) :=
  if item.isObj then
    let ts? := extractTimestampFB item
    match extractCoordsFB item with
    | .error e => .error e
    | .ok (la, lo) =>
      let name := extractNameFB item
      if !la.isNull && !lo.isNull then
        let ts := ts?.getD now
        match dateFilterKeep df dto ts with
        | .error e => .error e
        | .ok false => .ok none
        | .ok true =>
          match pyFloat la with
          | .error e => .error e
          | .ok laq =>
            match pyFloat lo with
            | .error e => .error e
            | .ok loq =>
              .ok (some ⟨.float laq, .float loq, ts, "Facebook Location",
                .str (if name ≠ "" then pyTake name 200 else "Location")⟩)
      else .ok none
  else .ok none

/-! ## FacebookPlugin.collect_locations — post records -/

/-- The post-text loop (keys `post`, `content`, `message`, `text`):
first truthy value, stringified. -/
def extractContentPostFBGo (post : Json) : List String → String
  | [] => ""
  | k :: ks =>
    if post.hasKey k && (post.get k).truthy then pyStr (post.get k)
    else extractContentPostFBGo post ks

/-- Post-text extraction of the Facebook posts collector. -/
def extractContentPostFB (post : Json) : String :=
  extractContentPostFBGo post ["post", "content", "message", "text"]

/-- The timestamp key loop of the Facebook posts collector (keys
`timestamp`, `time`, `created_time`): an integer goes through
`fromtimestamp`, a string through `fromisoformat` only (no `strptime`
patterns here); a caught `ValueError` moves on to the next key; any
other value stops with no timestamp. -/
def extractTimestampPostFBGo (post : Json) : List String → Option DateTime
  | [] => none
  | k :: ks =>
    if post.hasKey k then
      match post.get k with
      | .int z =>
        match epochToDateTime z with
        | .ok t => some t
        | .error _ => extractTimestampPostFBGo post ks
      | .bool b =>
        match epochToDateTime (if b then 1 else 0) with
        | .ok t => some t
        | .error _ => extractTimestampPostFBGo post ks
      | .str s =>
        match isoZParse s.data with
        | some t => some t
        | none => extractTimestampPostFBGo post ks
      | _ => none
    else extractTimestampPostFBGo post ks

/-- Timestamp extraction of the Facebook posts collector. -/
def extractTimestampPostFB (post : Json) : Option DateTime :=
  extractTimestampPostFBGo post ["timestamp", "time", "created_time"]

/-- Coordinate extraction of the Facebook posts collector (all nested
accesses are `isinstance`-guarded here, so it is total); `some` when
the source's `location_found` flag would be set. -/
def extractCoordsPostFB (post : Json) : Option (Json × Json) :=
  if post.hasKey "latitude" && post.hasKey "longitude" then
    some (post.get "latitude", post.get "longitude")
  else if post.hasKey "place" && (post.get "place").isObj then
    let place := post.get "place"
    if place.hasKey "coordinate" && (place.get "coordinate").isObj then
      some ((place.get "coordinate").get "latitude", (place.get "coordinate").get "longitude")
    else if place.hasKey "location" && (place.get "location").isObj then
      some ((place.get "location").get "latitude", (place.get "location").get "longitude")
    else none
  else if post.hasKey "location" && (post.get "location").isObj then
    some ((post.get "location").get "latitude", (post.get "location").get "longitude")
  else none

/-- Processing of one Facebook post record: the
`location_found and latitude is not None and longitude is not None`
retention test, the `datetime.now()` default, the date filter, and
`context[:200]`. -/
def processPostFB (now : DateTime) (df dto : Option DateTime) (post : Json) :
    Except PyErr (Option LocationPoint) :=
  if post.isObj then
    let content := extractContentPostFB post
    let ts? := extractTimestampPostFB post
    match extractCoordsPostFB post with
    | none => .ok none
    | some (la, lo) =>
      if !la.isNull && !lo.isNull then
        let ts := ts?.getD now
        match dateFilterKeep df dto ts with
        | .error e => .error e
        | .ok false => .ok none
        | .ok true =>
          match pyFloat la with
          | .error e => .error e
          | .ok laq =>
            match pyFloat lo with
            | .error e => .error e
            | .ok loq =>
              .ok (some ⟨.float laq, .float loq, ts, "Facebook Post",
                .str (pyTake content 200)⟩)
      else .ok none
  else .ok none

/-! ## InstagramPlugin.collect_locations -/

/-- Location extraction of the Instagram collector, Format 1: a dict
`location` with a `latitude` key, taken via `.get`, or a delimited
`"lat,lon"` string split and `float`-converted (a caught
`ValueError` leaves the location unset). -/
def extractLoc1IG (item : Json) : Option (Json × Json) :=
  if item.hasKey "location" && (item.get "location").truthy then
    let l := item.get "location"
    if l.isObj && l.hasKey "latitude" then
      some (l.get "latitude", l.get "longitude")
    else if l.isStr && ((pyStr l).splitOn ",").length > 1 then
      let parts := (pyStr l).splitOn ","
      if parts.length ≥ 2 then
        match parseFloatStr ⟨pyStrip (parts.getD 0 "")⟩, parseFloatStr ⟨pyStrip (parts.getD 1 "")⟩ with
        | some a, some b => some (.float a, .float b)
        | _, _ => none
      else none
    else none
  else none

/-- Location extraction of the Instagram collector, Format 2 on top of
Format 1: a dict `place` holding `location`, whose
`latitude`/`longitude` membership tests use the unguarded Python `in`
(a `TypeError` on number-like values) and whose subscripts
`loc["latitude"]` are a `TypeError` on strings and lists. -/
def extractLocationIG (item : Json) : Except PyErr (Option (Json × Json)) :=
  let loc1 := extractLoc1IG item
  if loc1.isNone && item.hasKey "place" && (item.get "place").truthy then
    let pl := item.get "place"
    if pl.isObj && pl.hasKey "location" then
      let loc := pl.get "location"
      match Json.pyIn "latitude" loc with
      | .error e => .error e
      | .ok false => .ok none
      | .ok true =>
        match Json.pyIn "longitude" loc with
        | .error e => .error e
        | .ok false => .ok none
        | .ok true =>
          match loc.pyIndex "latitude" with
          | .error e => .error e
          | .ok la =>
            match loc.pyIndex "longitude" with
            | .error e => .error e
            | .ok lo => .ok (some (la, lo))
    else .ok none
  else .ok loc1

/-- The exact condition under which `extractLocationIG` raises: no
Format-1 location, a truthy dict `place` holding `location`, and that
value either has no `in` operator (`None`, numbers, booleans —
`TypeError`) or passes both membership tests without being a dict
(string substring / list membership, then an unsubscriptable
`loc["latitude"]` — `TypeError`). -/
def locationIGRaises (item : Json) : Bool :=
  (extractLoc1IG item).isNone && item.hasKey "place" && (item.get "place").truthy &&
  (item.get "place").isObj && (item.get "place").hasKey "location" &&
  (let loc := (item.get "place").get "location"
   match loc with
   | .obj _ => false
   | .str s => (s.splitOn "latitude").length > 1 && (s.splitOn "longitude").length > 1
   | .arr l =>
     l.any (fun e => match e with | .str s => s = "latitude" | _ => false) &&
     l.any (fun e => match e with | .str s => s = "longitude" | _ => false)
   | _ => true)

/-- The timestamp key loop of the Instagram collector (keys `taken_at`,
`created_at`, `timestamp`, `creation_timestamp`): an integer goes
through `fromtimestamp`; any other value has `.replace` called on it —
an uncaught `AttributeError` unless it is a string — and then
`fromisoformat`; a caught `ValueError` moves on to the next key. -/
def extractTimestampIGGo (item : Json) : List String → Except PyErr (Option DateTime)
  | [] => .ok none
  | k :: ks =>
    if item.hasKey k then
      match item.get k with
      | .int z =>
        match epochToDateTime z with
        | .ok t => .ok (some t)
        | .error _ => extractTimestampIGGo item ks
      | .bool b =>
        match epochToDateTime (if b then 1 else 0) with
        | .ok t => .ok (some t)
        | .error _ => extractTimestampIGGo item ks
      | .str s =>
        match isoZParse s.data with
        | some t => .ok (some t)
        | none => extractTimestampIGGo item ks
      | _ => .error .attributeError
    else extractTimestampIGGo item ks

/-- Timestamp extraction of the Instagram collector. -/
def extractTimestampIG (item : Json) : Except PyErr (Option DateTime) :=
  extractTimestampIGGo item ["taken_at", "created_at", "timestamp", "creation_timestamp"]

/-- Caption extraction of the Instagram collector: a dict `caption`
with a `text` member yields that member unconverted; a string
`caption` yields itself; otherwise the caption stays the initial
empty string. -/
def extractCaptionIG (item : Json) : Json :=
  if item.hasKey "caption" then
    let c := item.get "caption"
    if c.isObj && c.hasKey "text" then c.get "text"
    else if c.isStr then c
    else .str ""
  else .str ""

/-- Processing of one Instagram media record: location, timestamp and
caption extraction, the truthiness retention test
`if location and location["latitude"] and location["longitude"]`, the
`datetime.now()` default, the date filter, and `caption[:200]`.  The
coordinates are passed to the record unconverted. -/
def processItemIG (now : DateTime) (df dto : Option DateTime) (item : Json) :
    Except PyErr (Option LocationPoint) :=
  if item.isObj then
    match extractLocationIG item with
    | .error e => .error e
    | .ok loc? =>
      match extractTimestampIG item with
      | .error e => .error e
      | .ok ts? =>
        let caption := extractCaptionIG item
        match loc? with
        | some (la, lo) =>
          if la.truthy && lo.truthy then
            let ts := ts?.getD now
            match dateFilterKeep df dto ts with
            | .error e => .error e
            | .ok false => .ok none
            | .ok true =>
              match pySliceStr caption 200 with
              | .error e => .error e
              | .ok ctx => .ok (some ⟨la, lo, ts, "Instagram", ctx⟩)
          else .ok none
        | none => .ok none
  else .ok none

/-! ## File-level processing

Each collector wraps the whole per-file record loop in one
`try/except`: a raised record aborts the remainder of that file's
records, but the points already appended stay in `locations` and the
remaining files are still processed. -/

/-- Run a per-record processor over one file's records with the
collectors' per-file `try/except`: an exception drops the rest of
this file's records, keeping the points appended so far. -/
def runItems (f : Json → Except PyErr (Option LocationPoint)) : List Json → List LocationPoint
  | [] => []
  | it :: rest =>
    match f it with
    | .error _ => []
    | .ok none => runItems f rest
    | .ok (some p) => p :: runItems f rest

/-- The first key of `keys` holding a list in `data`, as the
collectors' `if key in data and isinstance(data[key], list)` loops. -/
def firstListKey (data : Json) : List String → List Json
  | [] => []
  | k :: ks =>
    if data.hasKey k then
      match data.get k with
      | .arr l => l
      | _ => firstListKey data ks
    else firstListKey data ks

/-- The location items of one Facebook location-history file: the file
itself when it is a list, else the first list under the known keys. -/
def locationItemsFB (data : Json) : List Json :=
  match data with
  | .arr l => l
  | .obj _ => firstListKey data
      ["location_history", "locations", "history", "visits", "places_visited", "check_ins"]
  | _ => []

/-- The post items of one Facebook posts file. -/
def postItemsFB (data : Json) : List Json :=
  match data with
  | .arr l => l
  | .obj _ => firstListKey data ["posts", "your_posts", "activity"]
  | _ => []

/-- Process one Facebook location-history file (already parsed). -/
def processLocationFileFB (now : DateTime) (df dto : Option DateTime) (data : Json) :
    List LocationPoint :=
  runItems (processItemFB now df dto) (locationItemsFB data)

/-- Process a list of Facebook location-history files; a failing file
never stops the following files. -/
def collectLocationFilesFB (now : DateTime) (df dto : Option DateTime) (files : List Json) :
    List LocationPoint :=
  (files.map (processLocationFileFB now df dto)).flatten

/-- Process one Facebook posts file (already parsed). -/
def processPostFileFB (now : DateTime) (df dto : Option DateTime) (data : Json) :
    List LocationPoint :=
  runItems (processPostFB now df dto) (postItemsFB data)

/-- Process a list of Facebook posts files. -/
def collectPostFilesFB (now : DateTime) (df dto : Option DateTime) (files : List Json) :
    List LocationPoint :=
  (files.map (processPostFileFB now df dto)).flatten

/-- `FacebookPlugin.collect_locations` on parsed file contents:
location-history files first, then post files. -/
def collectFB (now : DateTime) (df dto : Option DateTime) (locFiles postFiles : List Json) :
    List LocationPoint :=
  collectLocationFilesFB now df dto locFiles ++ collectPostFilesFB now df dto postFiles

/-- Python iteration over a non-list `media_items` value: a dict
yields its keys, a string its characters, anything else a
`TypeError`. -/
def iterItems : Json → Except PyErr (List Json)
  | .arr l => .ok l
  | .obj fields => .ok (fields.map (fun p => .str p.1))
  | .str s => .ok (s.data.map (fun c => .str (String.mk [c])))
  | _ => .error .typeError

/-- The media items of one Instagram file: `photos`, `videos` or
`media` under a dict (unguarded — iterating a non-list raises inside
the per-file `try`), the file itself when it is a list, nothing
otherwise. -/
def mediaItemsIG (data : Json) : Except PyErr (List Json) :=
  match data with
  | .obj _ =>
    if data.hasKey "photos" then iterItems (data.get "photos")
    else if data.hasKey "videos" then iterItems (data.get "videos")
    else if data.hasKey "media" then iterItems (data.get "media")
    else .ok []
  | .arr l => .ok l
  | _ => .ok []

/-- Process one Instagram media file (already parsed). -/
def processMediaFileIG (now : DateTime) (df dto : Option DateTime) (data : Json) :
    List LocationPoint :=
  match mediaItemsIG data with
  | .error _ => []
  | .ok items => runItems (processItemIG now df dto) items

/-- `InstagramPlugin.collect_locations` on parsed file contents. -/
def collectIG (now : DateTime) (df dto : Option DateTime) (files : List Json) :
    List LocationPoint :=
  (files.map (processMediaFileIG now df dto)).flatten

/-! ## InputPlugin error accounting

`InputPlugin` (the plugin base class) keeps a per-instance
`error_count`, set to `0` in `__init__` and touched only inside the
methods' exception handlers.  Each operation is modelled with the
boolean outcome(s) of its fallible step(s). -/

/-- One invocation of an `InputPlugin` method; the booleans say
whether the corresponding guarded step raised. -/
inductive PluginOp where
  | activate
  | deactivate
  | searchForTargets
  | loadConfiguration
  | isConfigured
  | returnLocations
  | returnPersonalInformation
  | getConfigObj (fails : Bool)
  | readConfiguration (configFails categoryMissing : Bool)
  | saveConfiguration (fails : Bool)
  | loadSearchConfigurationParameters (fails : Bool)
  | getLabelForKey (fails : Bool)
  | logError
  deriving DecidableEq, Repr

/-- The effect of one `InputPlugin` operation on `error_count`:
`getConfigObj`, `saveConfiguration` and
`loadSearchConfigurationParameters` increment it in their handlers;
`readConfiguration` can increment twice (its inner `getConfigObj` and
its category lookup); `log_error` always increments; `getLabelForKey`
only logs a warning; every other method never touches it. -/
def stepErrorCount : PluginOp → ℕ → ℕ
  | .getConfigObj f, n => if f then n + 1 else n
  | .readConfiguration f1 f2, n =>
    let n1 := if f1 then n + 1 else n
    if f2 then n1 + 1 else n1
  | .saveConfiguration f, n => if f then n + 1 else n
  | .loadSearchConfigurationParameters f, n => if f then n + 1 else n
  | .getLabelForKey _, n => n
  | .logError, n => n + 1
  | _, n => n

/-- A lifetime of `InputPlugin` operations, threaded through
`error_count`. -/
def runPluginOps (ops : List PluginOp) (n : ℕ) : ℕ :=
  ops.foldl (fun m op => stepErrorCount op m) n

/-! ## Schema coordinate bounds -/

/-- The numeric value of a JSON number (`null`, strings, containers
have none). -/
def numVal : Json → Option ℚ
  | .int z => some (z : ℚ)
  | .float q => some q
  | _ => none

/-- Modelled from the spec: the coordinate validity that
`location_schema.json` declares for a `LocationPoint` — `latitude` a
number in `[-90, 90]`, `longitude` a number in `[-180, 180]`. -/
def coordsValidSchema (p : LocationPoint) : Bool :=
  match numVal p.latitude, numVal p.longitude with
  | some la, some lo => -90 ≤ la && la ≤ 90 && -180 ≤ lo && lo ≤ 180
  | _, _ => false

/-! ## AggregationEngine (modelled from the spec)

The aggregation engine does not appear in the source tree; this
section models `merge` from the specification §4.5: concatenate the
successful results' locations, apply the date and radius filters,
deduplicate within a temporal and spatial tolerance preferring
non-estimated timestamps and longer contexts, and order by timestamp
with source and insertion order as tie-breaks.  The great-circle
radius test is abstracted as a pointwise predicate on the coordinates
(exact trigonometric distance is not representable here, and the
claims quantify over every fixed choice of filter); the spatial
duplicate tolerance (spec: "≤ 10 meters") is a per-axis bound of
`1/10000` degree. -/

/-- Modelled from the spec: the canonical location record as the
aggregation engine sees it, with the spec's
`timestamp_is_estimated` tag; the timestamp of an estimated point is
its collection time, in epoch seconds. -/
structure SpecPoint where
  latitude : ℚ
  longitude : ℚ
  timestamp : ℤ
  timestampIsEstimated : Bool
  source : String
  context : String
  deriving DecidableEq, Repr

/-- Modelled from the spec: one plugin's outcome as handed to the
aggregation engine; an errored result contributes no locations. -/
structure ExecutionResult where
  pluginName : String
  locations : List SpecPoint
  errored : Bool

/-- The spec's authoritative date filter (inclusive bounds). -/
def specDatePred (df dto : Option ℤ) (p : SpecPoint) : Bool :=
  (match df with
   | none => true
   | some f => f ≤ p.timestamp) &&
  (match dto with
   | none => true
   | some t => p.timestamp ≤ t)

/-- The spec's radius filter, abstracted to a pointwise predicate on
the coordinates. -/
def specRegionPred (region : Option ((ℚ × ℚ) → Bool)) (p : SpecPoint) : Bool :=
  match region with
  | none => true
  | some r => r (p.latitude, p.longitude)

/-- The spec's duplicate test: timestamps within 60 seconds and
coordinates within the spatial tolerance on each axis. -/
def isDup (p q : SpecPoint) : Bool :=
  (p.timestamp - q.timestamp).natAbs ≤ 60 &&
  |p.latitude - q.latitude| ≤ 1 / 10000 &&
  |p.longitude - q.longitude| ≤ 1 / 10000

/-- Is `a` strictly preferred to `b` when deduplicating: a
non-estimated timestamp beats an estimated one, then a strictly
longer context wins; otherwise the incumbent is kept. -/
def betterPoint (a b : SpecPoint) : Bool :=
  if a.timestampIsEstimated != b.timestampIsEstimated then !a.timestampIsEstimated
  else b.context.length < a.context.length

/-- Insert one point into the deduplicated accumulator: absorb every
kept duplicate of `p` and retain the preferred representative. -/
def dedupInsert (kept : List SpecPoint) (p : SpecPoint) : List SpecPoint :=
  let dups := kept.filter (fun q => isDup p q)
  if dups.isEmpty then kept ++ [p]
  else
    let winner := dups.foldl (fun w q => if betterPoint q w then q else w) p
    kept.filter (fun q => !isDup p q) ++ [winner]

/-- The spec's deduplication pass. -/
def dedup (l : List SpecPoint) : List SpecPoint :=
  l.foldl dedupInsert []

/-- The spec's output order: ascending timestamp, ties by source (the
stable sort keeps insertion order on full ties). -/
def ptLE (a b : SpecPoint) : Prop :=
  a.timestamp < b.timestamp ∨ (a.timestamp = b.timestamp ∧ a.source ≤ b.source)

instance : DecidableRel ptLE := fun a b => by
  unfold ptLE; infer_instance

instance : IsTotal SpecPoint ptLE where
  total a b := by
    unfold ptLE
    rcases lt_trichotomy a.timestamp b.timestamp with h | h | h
    · exact Or.inl (Or.inl h)
    · rcases le_total a.source b.source with hs | hs
      · exact Or.inl (Or.inr ⟨h, hs⟩)
      · exact Or.inr (Or.inr ⟨h.symm, hs⟩)
    · exact Or.inr (Or.inl h)

instance : IsTrans SpecPoint ptLE where
  trans a b c hab hbc := by
    unfold ptLE at *
    rcases hab with h1 | ⟨h1, hs1⟩
    · rcases hbc with h2 | ⟨h2, _⟩
      · exact Or.inl (h1.trans h2)
      · exact Or.inl (h2 ▸ h1)
    · rcases hbc with h2 | ⟨h2, hs2⟩
      · exact Or.inl (h1 ▸ h2)
      · exact Or.inr ⟨h1.trans h2, hs1.trans hs2⟩

/-- Modelled from the spec: `AggregationEngine.merge` —
concatenation of successful results, authoritative date filter,
radius filter, deduplication, and stable ordering. -/
def specMerge (results : List ExecutionResult) (df dto : Option ℤ)
    (region : Option ((ℚ × ℚ) → Bool)) : List SpecPoint :=
  let pts := (results.map (fun r => if r.errored then [] else r.locations)).flatten
  let pts := pts.filter (specDatePred df dto)
  let pts := pts.filter (specRegionPred region)
  List.insertionSort ptLE (dedup pts)

/-! ## Concrete fixtures used by witnesses and counterexamples -/

/-- 2024-01-01T00:00:00, naive (equals `fromtimestamp 1704067200` in
the model's UTC clock). -/
def dt2024 : DateTime := ⟨2024, 1, 1, 0, 0, 0, 0, none⟩

/-- A location-history record with an out-of-schema latitude. -/
def fbItem999 : Json := .obj [("latitude", .float 999), ("longitude", .float 0)]

/-! ## C9: error_count is cumulative and monotone -/

/-- No single `InputPlugin` operation decreases `error_count`. -/
theorem stepErrorCount_le (op : PluginOp) (n : ℕ) : n ≤ stepErrorCount op n := by
  cases op <;> simp only [stepErrorCount] <;>
    first
    | (split_ifs <;> omega)
    | omega
    | tauto

/-- No sequence of `InputPlugin` operations decreases `error_count`. -/
theorem runPluginOps_le (ops : List PluginOp) : ∀ n : ℕ, n ≤ runPluginOps ops n := by
  induction ops with
  | nil => intro n; simp [runPluginOps]
  | cons op rest ih =>
    intro n
    have h1 : n ≤ stepErrorCount op n := stepErrorCount_le op n
    have h2 := ih (stepErrorCount op n)
    have h3 : runPluginOps (op :: rest) n = runPluginOps rest (stepErrorCount op n) := rfl
    omega

/-- C9: a plugin's `error_count` is cumulative over its lifetime and
monotonically non-decreasing — every `InputPlugin` operation
(configuration loading, saving, collection support, error logging)
either leaves it unchanged or increments it, and no sequence of
operations ever resets or decreases it. -/
theorem claim_C9 :
    (∀ (op : PluginOp) (n : ℕ),
      stepErrorCount op n = n ∨ stepErrorCount op n = n + 1 ∨ stepErrorCount op n = n + 2) ∧
    ∀ (ops : List PluginOp) (n : ℕ), n ≤ runPluginOps ops n := by
  refine ⟨?_, fun ops n => runPluginOps_le ops n⟩
  intro op n
  cases op <;> simp only [stepErrorCount] <;>
    first
    | (split_ifs <;> omega)
    | omega
    | tauto

/-! ## C1: retained coordinates are not range-validated -/

/-- C1: contrary to the claim (and to the bounds `location_schema.json`
declares), `FacebookPlugin.collect_locations` retains a record whose
latitude is `999`: the retention test only checks that the values are
not `None`, so the emitted `LocationPoint` violates the schema's
`[-90, 90]` bound instead of being excluded. -/
theorem claim_C1 :
    processItemFB dt2024 none none fbItem999 =
      .ok (some ⟨.float 999, .float 0, dt2024, "Facebook Location", .str "Location"⟩) ∧
    coordsValidSchema ⟨.float 999, .float 0, dt2024, "Facebook Location",
      .str "Location"⟩ = false := by
  exact ⟨rfl, rfl⟩

/-! ## Success characterizations of the record processors -/

/-- `processItemFB` yields a point exactly when the record is a dict,
coordinate extraction returns two non-`None` values, the date filter
keeps the (possibly defaulted) timestamp, and both `float(...)`
conversions succeed; the point's fields are then determined. -/
theorem processItemFB_ok_some (now : DateTime) (df dto : Option DateTime) (item : Json)
    (p : LocationPoint) :
    processItemFB now df dto item = .ok (some p) ↔
    ∃ la lo laq loq,
      item.isObj = true ∧
      extractCoordsFB item = .ok (la, lo) ∧
      la.isNull = false ∧ lo.isNull = false ∧
      dateFilterKeep df dto ((extractTimestampFB item).getD now) = .ok true ∧
      pyFloat la = .ok laq ∧ pyFloat lo = .ok loq ∧
      p = ⟨.float laq, .float loq, (extractTimestampFB item).getD now, "Facebook Location",
            .str (if extractNameFB item ≠ "" then pyTake (extractNameFB item) 200
              else "Location")⟩ := by
  constructor
  · intro h
    dsimp only [processItemFB] at h
    split at h
    case isFalse => exact absurd h (by simp)
    case isTrue hobj =>
      split at h
      case h_1 => exact absurd h (by simp)
      case h_2 la lo hc =>
        split at h
        case isFalse => exact absurd h (by simp)
        case isTrue hnn =>
          split at h
          case h_1 => exact absurd h (by simp)
          case h_2 => exact absurd h (by simp)
          case h_3 hd =>
            split at h
            case h_1 => exact absurd h (by simp)
            case h_2 laq hf1 =>
              split at h
              case h_1 => exact absurd h (by simp)
              case h_2 loq hf2 =>
                refine ⟨la, lo, laq, loq, hobj, hc, ?_, ?_, hd, hf1, hf2, ?_⟩
                · exact (Bool.and_eq_true .. ▸ hnn).1 |> (by simpa using ·)
                · exact (Bool.and_eq_true .. ▸ hnn).2 |> (by simpa using ·)
                · cases h; rfl
  · rintro ⟨la, lo, laq, loq, hobj, hc, hla, hlo, hd, hf1, hf2, rfl⟩
    simp [processItemFB, hobj, hc, hla, hlo, hd, hf1, hf2]

/-- `processPostFB` yields a point exactly when the post is a dict
with a found, non-`None` coordinate pair, a kept timestamp, and
successful `float(...)` conversions; the point's fields are then
determined. -/
theorem processPostFB_ok_some (now : DateTime) (df dto : Option DateTime) (post : Json)
    (p : LocationPoint) :
    processPostFB now df dto post = .ok (some p) ↔
    ∃ la lo laq loq,
      post.isObj = true ∧
      extractCoordsPostFB post = some (la, lo) ∧
      la.isNull = false ∧ lo.isNull = false ∧
      dateFilterKeep df dto ((extractTimestampPostFB post).getD now) = .ok true ∧
      pyFloat la = .ok laq ∧ pyFloat lo = .ok loq ∧
      p = ⟨.float laq, .float loq, (extractTimestampPostFB post).getD now, "Facebook Post",
            .str (pyTake (extractContentPostFB post) 200)⟩ := by
  constructor
  · intro h
    dsimp only [processPostFB] at h
    split at h
    case isFalse => exact absurd h (by simp)
    case isTrue hobj =>
      split at h
      case h_1 => exact absurd h (by simp)
      case h_2 la lo hc =>
        split at h
        case isFalse => exact absurd h (by simp)
        case isTrue hnn =>
          split at h
          case h_1 => exact absurd h (by simp)
          case h_2 => exact absurd h (by simp)
          case h_3 hd =>
            split at h
            case h_1 => exact absurd h (by simp)
            case h_2 laq hf1 =>
              split at h
              case h_1 => exact absurd h (by simp)
              case h_2 loq hf2 =>
                refine ⟨la, lo, laq, loq, hobj, hc, ?_, ?_, hd, hf1, hf2, ?_⟩
                · exact (Bool.and_eq_true .. ▸ hnn).1 |> (by simpa using ·)
                · exact (Bool.and_eq_true .. ▸ hnn).2 |> (by simpa using ·)
                · cases h; rfl
  · rintro ⟨la, lo, laq, loq, hobj, hc, hla, hlo, hd, hf1, hf2, rfl⟩
    simp [processPostFB, hobj, hc, hla, hlo, hd, hf1, hf2]

/-- `processItemIG` yields a point exactly when the record is a dict,
location extraction finds a pair, timestamp extraction does not raise,
both coordinates are truthy, the date filter keeps the timestamp and
the caption slice does not raise; the point's fields are then
determined. -/
theorem processItemIG_ok_some (now : DateTime) (df dto : Option DateTime) (item : Json)
    (p : LocationPoint) :
    processItemIG now df dto item = .ok (some p) ↔
    ∃ la lo ts? ctx,
      item.isObj = true ∧
      extractLocationIG item = .ok (some (la, lo)) ∧
      extractTimestampIG item = .ok ts? ∧
      la.truthy = true ∧ lo.truthy = true ∧
      dateFilterKeep df dto (ts?.getD now) = .ok true ∧
      pySliceStr (extractCaptionIG item) 200 = .ok ctx ∧
      p = ⟨la, lo, ts?.getD now, "Instagram", ctx⟩ := by
  constructor
  · intro h
    dsimp only [processItemIG] at h
    split at h
    case isFalse => exact absurd h (by simp)
    case isTrue hobj =>
      split at h
      case h_1 => exact absurd h (by simp)
      case h_2 loc? hloc =>
        split at h
        case h_1 => exact absurd h (by simp)
        case h_2 ts? hts =>
          split at h
          case h_2 => exact absurd h (by simp)
          case h_1 la lo =>
            split at h
            case isFalse => exact absurd h (by simp)
            case isTrue htr =>
              split at h
              case h_1 => exact absurd h (by simp)
              case h_2 => exact absurd h (by simp)
              case h_3 hd =>
                split at h
                case h_1 => exact absurd h (by simp)
                case h_2 ctx hctx =>
                  refine ⟨la, lo, ts?, ctx, hobj, ?_, hts, ?_, ?_, hd, hctx, ?_⟩
                  · exact hloc
                  · exact (Bool.and_eq_true .. ▸ htr).1
                  · exact (Bool.and_eq_true .. ▸ htr).2
                  · cases h; rfl
  · rintro ⟨la, lo, ts?, ctx, hobj, hloc, hts, hla, hlo, hd, hctx, rfl⟩
    simp [processItemIG, hobj, hloc, hts, hla, hlo, hd, hctx]

/-! ## C10: Instagram truthiness test drops zero coordinates -/

/-- An Instagram record located on the equator (`latitude = 0`). -/
def igItemZero : Json :=
  .obj [("location", .obj [("latitude", .float 0), ("longitude", .float 5)])]

/-- The same record moved off the equator. -/
def igItemOne : Json :=
  .obj [("location", .obj [("latitude", .float 1), ("longitude", .float 5)])]

/-- C10: the Instagram collector tests the extracted coordinates for
truthiness, not presence — whenever either extracted coordinate is
falsy (in particular the number `0`), the record is dropped, while the
same record with a nonzero coordinate is retained. -/
theorem claim_C10 :
    (∀ (now : DateTime) (df dto : Option DateTime) (item : Json) (la lo : Json)
        (ts? : Option DateTime),
      extractLocationIG item = .ok (some (la, lo)) →
      extractTimestampIG item = .ok ts? →
      (la.truthy = false ∨ lo.truthy = false) →
      processItemIG now df dto item = .ok none) ∧
    processItemIG dt2024 none none igItemOne =
      .ok (some ⟨.float 1, .float 5, dt2024, "Instagram", .str ""⟩) := by
  constructor
  · intro now df dto item la lo ts? hloc hts htr
    cases hobj : item.isObj
    · simp [processItemIG, hobj]
    · rcases htr with h | h <;> simp [processItemIG, hobj, hloc, hts, h]
  · rfl

/-- Witness for C10 at the concrete equator record. -/
theorem claim_C10_witness :
    processItemIG dt2024 none none igItemZero = .ok none :=
  claim_C10.1 dt2024 none none igItemZero (.float 0) (.float 5) none rfl rfl (Or.inl rfl)

/-! ## C6: missing timestamps default to `now`, untagged -/

/-- A location-history record with a source timestamp
(`1704067200` = 2024-01-01T00:00:00 UTC). -/
def fbItemWithTs : Json :=
  .obj [("latitude", .int 1), ("longitude", .int 2), ("timestamp", .int 1704067200)]

/-- The same record with no timestamp at all. -/
def fbItemNoTs : Json := .obj [("latitude", .int 1), ("longitude", .int 2)]

/-- C6 (amended): when the source provides no usable timestamp, the
emitted point's timestamp is the collection time (`datetime.now()`),
for both the Facebook and the Instagram collector.  (No
`timestamp_is_estimated` tag exists — see the counterexample.) -/
theorem claim_C6 :
    (∀ (now : DateTime) (df dto : Option DateTime) (item : Json) (p : LocationPoint),
      extractTimestampFB item = none →
      processItemFB now df dto item = .ok (some p) → p.timestamp = now) ∧
    (∀ (now : DateTime) (df dto : Option DateTime) (item : Json) (p : LocationPoint),
      extractTimestampIG item = .ok none →
      processItemIG now df dto item = .ok (some p) → p.timestamp = now) := by
  constructor
  · intro now df dto item p h1 h2
    obtain ⟨la, lo, laq, loq, _, _, _, _, _, _, _, hp⟩ :=
      (processItemFB_ok_some now df dto item p).mp h2
    rw [hp, h1]
    rfl
  · intro now df dto item p h1 h2
    obtain ⟨la, lo, ts?, ctx, _, _, hts, _, _, _, _, hp⟩ :=
      (processItemIG_ok_some now df dto item p).mp h2
    rw [h1] at hts
    cases hts
    rw [hp]
    rfl

/-- Counterexample for C6 as stated: no emitted field records that a
timestamp was estimated — a record whose source timestamp equals the
collection time and a record with no timestamp at all produce
identical `LocationPoint`s, so downstream consumers cannot
distinguish them. -/
theorem claim_C6_counterexample :
    extractTimestampFB fbItemWithTs = some dt2024 ∧
    extractTimestampFB fbItemNoTs = none ∧
    processItemFB dt2024 none none fbItemWithTs = processItemFB dt2024 none none fbItemNoTs ∧
    processItemFB dt2024 none none fbItemNoTs =
      .ok (some ⟨.float 1, .float 2, dt2024, "Facebook Location", .str "Location"⟩) :=
  ⟨rfl, rfl, rfl, rfl⟩

/-- Witness for C6 at the concrete timestamp-free record. -/
theorem claim_C6_witness :
    extractTimestampFB fbItemNoTs = none ∧
    (⟨Json.float 1, Json.float 2, dt2024, "Facebook Location", Json.str "Location"⟩
        : LocationPoint).timestamp = dt2024 :=
  ⟨rfl, claim_C6.1 dt2024 none none fbItemNoTs
    ⟨Json.float 1, Json.float 2, dt2024, "Facebook Location", Json.str "Location"⟩ rfl rfl⟩

/-! ## C7: context truncation -/

/-- Truncation bounds the length. -/
theorem pyTake_length_le (s : String) (n : ℕ) : (pyTake s n).length ≤ n := by
  have h : (pyTake s n).length = (s.data.take n).length := rfl
  rw [h]
  exact List.length_take_le n s.data

/-- C7 (amended): every *string* context is truncated to at most 200
characters and never dropped — Facebook location records truncate the
place name (falling back to `"Location"` only when it is empty),
Facebook post records truncate the post text, and an Instagram record
whose caption value is a string truncates it likewise.  The universal
claim fails: a list-valued Instagram `caption.text` is sliced as a
list, and the emitted point's context is that list with its string
elements untruncated (see the counterexample). -/
theorem claim_C7 :
    (∀ (now : DateTime) (df dto : Option DateTime) (item : Json) (p : LocationPoint),
      processItemFB now df dto item = .ok (some p) →
      ∃ cs, p.context = .str cs ∧ cs.length ≤ 200 ∧
        (200 < (extractNameFB item).length → cs = pyTake (extractNameFB item) 200)) ∧
    (∀ (now : DateTime) (df dto : Option DateTime) (post : Json) (p : LocationPoint),
      processPostFB now df dto post = .ok (some p) →
      ∃ cs, p.context = .str cs ∧ cs.length ≤ 200 ∧
        cs = pyTake (extractContentPostFB post) 200) ∧
    (∀ (now : DateTime) (df dto : Option DateTime) (item : Json) (p : LocationPoint) (s : String),
      processItemIG now df dto item = .ok (some p) →
      extractCaptionIG item = .str s →
      ∃ cs, p.context = .str cs ∧ cs.length ≤ 200 ∧ cs = pyTake s 200) := by
  refine ⟨?_, ?_, ?_⟩
  · intro now df dto item p h
    obtain ⟨la, lo, laq, loq, _, _, _, _, _, _, _, hp⟩ :=
      (processItemFB_ok_some now df dto item p).mp h
    subst hp
    refine ⟨_, rfl, ?_, ?_⟩
    · by_cases hname : extractNameFB item = ""
      · simp [hname]
        decide
      · simp [hname]
        exact pyTake_length_le _ 200
    · intro hlong
      have hname : extractNameFB item ≠ "" := by
        intro heq
        rw [heq] at hlong
        simp at hlong
      simp [hname]
  · intro now df dto post p h
    obtain ⟨la, lo, laq, loq, _, _, _, _, _, _, _, hp⟩ :=
      (processPostFB_ok_some now df dto post p).mp h
    subst hp
    exact ⟨_, rfl, pyTake_length_le _ 200, rfl⟩
  · intro now df dto item p s h hcap
    obtain ⟨la, lo, ts?, ctx, _, _, _, _, _, _, hctx, hp⟩ :=
      (processItemIG_ok_some now df dto item p).mp h
    rw [hcap] at hctx
    cases hctx
    subst hp
    exact ⟨_, rfl, pyTake_length_le _ 200, rfl⟩

/-- A 201-character caption. -/
def longCaption : String := String.mk (List.replicate 201 'a')

/-- An Instagram record carrying the 201-character caption as a
string. -/
def igItemLong : Json :=
  .obj [("location", .obj [("latitude", .float 1), ("longitude", .float 5)]),
        ("caption", .str longCaption)]

/-- An Instagram record whose `caption.text` is a list holding the
201-character string. -/
def igItemListCap : Json :=
  .obj [("location", .obj [("latitude", .float 1), ("longitude", .float 5)]),
        ("caption", .obj [("text", .arr [.str longCaption])])]

/-- C7 counterexample to the claim as written: a list-valued
`caption.text` survives the `[:200]` slice as a list — the emitted
point's context is not a ≤200-character string, and the 201-character
text inside it is not truncated. -/
theorem claim_C7_counterexample :
    processItemIG dt2024 none none igItemListCap =
      .ok (some ⟨.float 1, .float 5, dt2024, "Instagram", .arr [.str longCaption]⟩) ∧
    200 < longCaption.length := by
  constructor
  · rfl
  · show 200 < (String.mk (List.replicate 201 'a')).length
    norm_num [String.length]

/-- Witness for C7: the long string caption comes through truncated to
its 200-character prefix. -/
theorem claim_C7_witness :
    (⟨Json.float 1, Json.float 5, dt2024, "Instagram",
        Json.str (pyTake longCaption 200)⟩ : LocationPoint).context =
      Json.str (pyTake longCaption 200) ∧
    (pyTake longCaption 200).length ≤ 200 := by
  obtain ⟨cs, h1, h2, h3⟩ := claim_C7.2.2 dt2024 none none igItemLong
    ⟨Json.float 1, Json.float 5, dt2024, "Instagram", Json.str (pyTake longCaption 200)⟩
    longCaption rfl rfl
  subst h3
  exact ⟨h1, h2⟩

/-! ## C2: coordinate extraction totality -/

/-- Did the embedded computation return without raising? -/
def isOkE {α : Type} : Except PyErr α → Bool
  | .ok _ => true
  | .error _ => false

@[simp] theorem isOkE_ok {α : Type} (v : α) : isOkE (.ok v) = true := rfl

@[simp] theorem isOkE_error {α : Type} (e : PyErr) : isOkE (.error e : Except PyErr α) = false := rfl

@[simp] theorem Json.isObj_null : Json.isObj .null = false := rfl

@[simp] theorem Json.isObj_bool (b : Bool) : Json.isObj (.bool b) = false := rfl

@[simp] theorem Json.isObj_int (z : ℤ) : Json.isObj (.int z) = false := rfl

@[simp] theorem Json.isObj_float (q : ℚ) : Json.isObj (.float q) = false := rfl

@[simp] theorem Json.isObj_str (s : String) : Json.isObj (.str s) = false := rfl

@[simp] theorem Json.isObj_arr (l : List Json) : Json.isObj (.arr l) = false := rfl

@[simp] theorem Json.isObj_obj (f : List (String × Json)) : Json.isObj (.obj f) = true := rfl

/-- `.get` on a dict returns the looked-up value. -/
theorem dictGet_obj_eq {j : Json} (h : j.isObj = true) (k : String) :
    j.dictGet k = .ok (j.get k) := by
  cases j <;> simp_all [Json.isObj, Json.dictGet]

/-- `.get` on a non-dict raises `AttributeError`. -/
theorem dictGet_not_obj {j : Json} (h : j.isObj = false) (k : String) :
    j.dictGet k = .error .attributeError := by
  cases j <;> simp_all [Json.isObj, Json.dictGet]

/-- A present key can be subscripted on a dict. -/
theorem pyIndex_of_hasKey (j : Json) (k : String) (h : j.hasKey k = true) :
    ∃ v, j.pyIndex k = .ok v := by
  cases j <;> simp [Json.hasKey] at h
  case obj fields =>
    obtain ⟨x, hx⟩ := h
    have hsome : (fields.find? (fun p => p.1 = k)).isSome := by
      rw [List.find?_isSome]
      exact ⟨(k, x), hx, by simp⟩
    obtain ⟨v, hv⟩ := Option.isSome_iff_exists.mp hsome
    exact ⟨v.2, by simp [Json.pyIndex, hv]⟩

/-- C2 (amended): coordinate extraction is total except on one record
shape per collector.  `extractCoordsFB` returns without raising exactly
when `coordsFBRaises` is false (it raises `AttributeError` on a dict
`place` whose `coordinate` member is present but not a dict);
`extractLocationIG` returns without raising exactly when
`locationIGRaises` is false (it raises `TypeError` when `place.location`
is a number-like value, or a string/list that passes both membership
tests).  The returned candidates are the raw export values, not
validated floats. -/
theorem claim_C2 (item : Json) :
    isOkE (extractCoordsFB item) = !coordsFBRaises item ∧
    isOkE (extractLocationIG item) = !locationIGRaises item := by
  constructor
  · unfold extractCoordsFB coordsFBRaises
    cases hE : ((item.get "place").get "coordinate").isObj
    · simp only [dictGet_not_obj hE]
      cases hA : (item.hasKey "latitude" && item.hasKey "longitude") <;>
        cases hB : (item.hasKey "coordinate" && (item.get "coordinate").isObj) <;>
        cases hC : (item.hasKey "place" && (item.get "place").isObj) <;>
        cases hD : (item.get "place").hasKey "coordinate" <;>
        cases hF : ((item.get "place").hasKey "location" &&
          ((item.get "place").get "location").isObj) <;>
        cases hG : (item.hasKey "location" && (item.get "location").isObj) <;>
        simp [hA, hB, hC, hD, hE, hF, hG]
    · simp only [dictGet_obj_eq hE]
      cases hA : (item.hasKey "latitude" && item.hasKey "longitude") <;>
        cases hB : (item.hasKey "coordinate" && (item.get "coordinate").isObj) <;>
        cases hC : (item.hasKey "place" && (item.get "place").isObj) <;>
        cases hD : (item.get "place").hasKey "coordinate" <;>
        cases hF : ((item.get "place").hasKey "location" &&
          ((item.get "place").get "location").isObj) <;>
        cases hG : (item.hasKey "location" && (item.get "location").isObj) <;>
        simp [hA, hB, hC, hD, hE, hF, hG]
  · unfold extractLocationIG locationIGRaises
    cases hOut : ((extractLoc1IG item).isNone && item.hasKey "place" && (item.get "place").truthy)
    · simp [hOut]
    · cases hD : (item.get "place").isObj <;> cases hE : (item.get "place").hasKey "location"
      · simp [hOut, hD, hE]
      · simp [hOut, hD, hE]
      · simp [hOut, hD, hE]
      · rcases hloc : (item.get "place").get "location" with _ | b | z | q | s | l | fl <;>
          simp only [hOut, hD, hE, hloc, Json.pyIn, Bool.true_and, Bool.and_true]
        · simp
        · simp
        · simp
        · simp
        · -- string: both substring tests may pass, then the subscript raises
          by_cases hla : (s.splitOn "latitude").length > 1 <;>
            by_cases hlo : (s.splitOn "longitude").length > 1 <;>
            simp [hla, hlo, Json.pyIndex]
        · -- list: both membership tests may pass, then the subscript raises
          by_cases hla :
              (l.any fun e => match e with | .str s => s = "latitude" | _ => false) = true <;>
            by_cases hlo :
              (l.any fun e => match e with | .str s => s = "longitude" | _ => false) = true <;>
            simp [hla, hlo, Json.pyIndex]
        · -- dict: membership tests are key tests and the subscripts succeed
          by_cases hla : (Json.obj fl).hasKey "latitude" = true <;>
            by_cases hlo : (Json.obj fl).hasKey "longitude" = true
          · obtain ⟨v1, hv1⟩ := pyIndex_of_hasKey _ "latitude" hla
            obtain ⟨v2, hv2⟩ := pyIndex_of_hasKey _ "longitude" hlo
            simp [hla, hlo, hv1, hv2]
          · simp [hla, hlo]
          · simp [hla, hlo]
          · simp [hla, hlo]

/-- Counterexample for C2 as stated: the Facebook coordinate
extraction raises `AttributeError` on a record whose `place` dict
holds a non-dict `coordinate` value, instead of returning `None`. -/
theorem claim_C2_counterexample :
    extractCoordsFB (.obj [("place", .obj [("coordinate", .int 5)])]) =
      .error .attributeError := rfl

/-! ## C3: one bad record aborts the rest of its file only -/

/-- The points a list of records would yield, skipping records without
a point. -/
def okPoints (f : Json → Except PyErr (Option LocationPoint)) (items : List Json) :
    List LocationPoint :=
  items.filterMap fun it =>
    match f it with
    | .ok (some p) => some p
    | _ => none

/-- Processing distributes over a prefix of records that do not
raise. -/
theorem runItems_append (f : Json → Except PyErr (Option LocationPoint)) (pre rest : List Json)
    (h : ∀ it ∈ pre, isOkE (f it) = true) :
    runItems f (pre ++ rest) = okPoints f pre ++ runItems f rest := by
  induction pre with
  | nil => simp [okPoints]
  | cons it pre ih =>
    have hit := h it (by simp)
    have hpre : ∀ x ∈ pre, isOkE (f x) = true := fun x hx => h x (by simp [hx])
    cases hfi : f it with
    | error e => rw [hfi] at hit; simp at hit
    | ok r =>
      cases r <;> simp [runItems, okPoints, hfi, ih hpre, List.filterMap_cons]

/-- C3 (amended): when one record of a location-history file raises,
the collector keeps every point collected from that file's earlier
records and still processes all other files — but the records after
the failing one in the same file are skipped (the `try/except` wraps
the whole file, not one record). -/
theorem claim_C3 (now : DateTime) (df dto : Option DateTime) (pre post : List Json)
    (bad : Json) (e : PyErr) (files1 files2 : List Json)
    (hpre : ∀ it ∈ pre, isOkE (processItemFB now df dto it) = true)
    (hbad : processItemFB now df dto bad = .error e) :
    collectLocationFilesFB now df dto (files1 ++ Json.arr (pre ++ bad :: post) :: files2) =
      collectLocationFilesFB now df dto files1 ++
        okPoints (processItemFB now df dto) pre ++
        collectLocationFilesFB now df dto files2 := by
  unfold collectLocationFilesFB
  rw [List.map_append, List.map_cons, List.flatten_append, List.flatten_cons]
  have hfile : processLocationFileFB now df dto (Json.arr (pre ++ bad :: post)) =
      okPoints (processItemFB now df dto) pre := by
    unfold processLocationFileFB locationItemsFB
    rw [runItems_append _ pre (bad :: post) hpre]
    simp [runItems, hbad]
  rw [hfile, List.append_assoc]

/-- A record whose latitude raises `ValueError` in `float(...)`. -/
def fbBadItem : Json := .obj [("latitude", .str "x"), ("longitude", .int 2)]

/-- A well-formed record following the bad one in the same file. -/
def fbItem34 : Json := .obj [("latitude", .int 3), ("longitude", .int 4)]

/-- A well-formed record in a subsequent file. -/
def fbItem56 : Json := .obj [("latitude", .int 5), ("longitude", .int 6)]

/-- Counterexample for C3 as stated: the record after the failing one
in the same file is processable on its own, yet its point is missing
from the collector's output (while the earlier record's point and the
next file's point survive). -/
theorem claim_C3_counterexample :
    collectLocationFilesFB dt2024 none none
        [.arr [fbItemNoTs, fbBadItem, fbItem34], .arr [fbItem56]] =
      [⟨.float 1, .float 2, dt2024, "Facebook Location", .str "Location"⟩,
       ⟨.float 5, .float 6, dt2024, "Facebook Location", .str "Location"⟩] ∧
    processItemFB dt2024 none none fbItem34 =
      .ok (some ⟨.float 3, .float 4, dt2024, "Facebook Location", .str "Location"⟩) ∧
    (⟨Json.float 3, Json.float 4, dt2024, "Facebook Location",
      Json.str "Location"⟩ : LocationPoint) ∉
      collectLocationFilesFB dt2024 none none
        [.arr [fbItemNoTs, fbBadItem, fbItem34], .arr [fbItem56]] := by
  refine ⟨rfl, rfl, ?_⟩
  intro h
  have h' : (⟨Json.float 3, Json.float 4, dt2024, "Facebook Location", Json.str "Location"⟩
      : LocationPoint) ∈
      ([⟨Json.float 1, Json.float 2, dt2024, "Facebook Location", Json.str "Location"⟩,
        ⟨Json.float 5, Json.float 6, dt2024, "Facebook Location", Json.str "Location"⟩]
        : List LocationPoint) := h
  simp only [List.mem_cons, List.not_mem_nil, or_false, LocationPoint.mk.injEq,
    Json.float.injEq] at h'
  rcases h' with ⟨h1, _⟩ | ⟨h1, _⟩ <;> norm_num at h1

/-- Witness for C3 at a concrete two-file input. -/
theorem claim_C3_witness :
    collectLocationFilesFB dt2024 none none
        (([] : List Json) ++ Json.arr ([fbItemNoTs] ++ fbBadItem :: [fbItem34]) :: [.arr [fbItem56]]) =
      collectLocationFilesFB dt2024 none none [] ++
        okPoints (processItemFB dt2024 none none) [fbItemNoTs] ++
        collectLocationFilesFB dt2024 none none [.arr [fbItem56]] :=
  claim_C3 dt2024 none none [fbItemNoTs] [fbItem34] fbBadItem .valueError [] [.arr [fbItem56]]
    (by
      intro it hit
      rw [List.mem_singleton] at hit
      subst hit
      rfl)
    rfl

/-! ## C5: the date filter's bounds are inclusive -/

/-- `compare n n = .eq` on naturals. -/
theorem compareSelfNat (n : ℕ) : compare n n = .eq := by
  show compareOfLessAndEq n n = .eq
  simp [compareOfLessAndEq]

/-- `compare z z = .eq` on integers. -/
theorem compareSelfInt (z : ℤ) : compare z z = .eq := by
  show compareOfLessAndEq z z = .eq
  simp [compareOfLessAndEq]

/-- Comparing a datetime with itself yields equality. -/
theorem dtCmp_self (t : DateTime) : dtCmp t t = .ok .eq := by
  cases h : t.tz <;>
    simp [dtCmp, h, dtCmpNaive, compareSelfNat, compareSelfInt, Ordering.then]

/-- The date filter is the only part of `processItemFB` that depends
on the bounds: on a record that yields a point unfiltered, any bounds
act exactly through `dateFilterKeep` on that point's timestamp. -/
theorem processItemFB_filtered (now : DateTime) (item : Json) (p : LocationPoint)
    (h : processItemFB now none none item = .ok (some p)) (df dto : Option DateTime) :
    processItemFB now df dto item =
      match dateFilterKeep df dto p.timestamp with
      | .error e => .error e
      | .ok true => .ok (some p)
      | .ok false => .ok none := by
  obtain ⟨la, lo, laq, loq, hobj, hc, hla, hlo, _, hf1, hf2, hp⟩ :=
    (processItemFB_ok_some now none none item p).mp h
  subst hp
  cases hfk : dateFilterKeep df dto ((extractTimestampFB item).getD now) with
  | error e => simp [processItemFB, hobj, hc, hla, hlo, hfk]
  | ok b => cases b <;> simp [processItemFB, hobj, hc, hla, hlo, hf1, hf2, hfk]

/-- C5: the date filter is inclusive — a record yielding a point whose
timestamp equals `date_from` and `date_to` is retained, while a
timestamp strictly before `date_from` or strictly after `date_to`
(by any margin, in particular one second) is excluded. -/
theorem claim_C5 (now : DateTime) (item : Json) (p : LocationPoint)
    (h : processItemFB now none none item = .ok (some p)) :
    processItemFB now (some p.timestamp) (some p.timestamp) item = .ok (some p) ∧
    (∀ df, dtCmp p.timestamp df = .ok .lt → processItemFB now (some df) none item = .ok none) ∧
    (∀ dt, dtCmp p.timestamp dt = .ok .gt → processItemFB now none (some dt) item = .ok none) := by
  refine ⟨?_, ?_, ?_⟩
  · rw [processItemFB_filtered now item p h]
    simp [dateFilterKeep, dateFilterKeepTo, dtCmp_self]
  · intro df hlt
    rw [processItemFB_filtered now item p h]
    simp [dateFilterKeep, hlt]
  · intro dt hgt
    rw [processItemFB_filtered now item p h]
    simp [dateFilterKeep, dateFilterKeepTo, hgt]

/-- One second after `dt2024`. -/
def dtSec1 : DateTime := ⟨2024, 1, 1, 0, 0, 1, 0, none⟩

/-- One second before `dt2024`. -/
def dtSecM1 : DateTime := ⟨2023, 12, 31, 23, 59, 59, 0, none⟩

/-- Witness for C5: bounds equal to the point's timestamp keep it;
bounds one second inside either direction drop it. -/
theorem claim_C5_witness :
    processItemFB dt2024 (some dt2024) (some dt2024) fbItemWithTs =
      .ok (some ⟨Json.float 1, Json.float 2, dt2024, "Facebook Location",
        Json.str "Location"⟩) ∧
    processItemFB dt2024 (some dtSec1) none fbItemWithTs = .ok none ∧
    processItemFB dt2024 none (some dtSecM1) fbItemWithTs = .ok none := by
  have h := claim_C5 dt2024 fbItemWithTs
    ⟨Json.float 1, Json.float 2, dt2024, "Facebook Location", Json.str "Location"⟩ rfl
  exact ⟨h.1, h.2.1 dtSec1 rfl, h.2.2 dtSecM1 rfl⟩

/-! ## C8: merge is idempotent -/

/-- The duplicate test is symmetric. -/
theorem isDup_symm (p q : SpecPoint) : isDup p q = isDup q p := by
  unfold isDup
  rw [show (p.timestamp - q.timestamp).natAbs = (q.timestamp - p.timestamp).natAbs by omega,
    abs_sub_comm p.latitude, abs_sub_comm p.longitude]

/-- A symmetric pairwise relation relates any two distinct members. -/
theorem pairwise_symm_forall {α : Type} {R : α → α → Prop}
    (hs : ∀ a b, R a b → R b a) {l : List α} (h : l.Pairwise R) :
    ∀ a ∈ l, ∀ b ∈ l, a ≠ b → R a b := by
  induction h with
  | nil => intro a ha; exact absurd ha (List.not_mem_nil a)
  | cons hx _ ih =>
    intro a ha b hb hne
    rcases List.mem_cons.mp ha with ha1 | ha1
    · rcases List.mem_cons.mp hb with hb1 | hb1
      · rw [ha1, hb1] at hne; exact absurd rfl hne
      · rw [ha1]; exact hx b hb1
    · rcases List.mem_cons.mp hb with hb1 | hb1
      · rw [hb1]; exact hs _ _ (hx a ha1)
      · exact ih a ha1 b hb1 hne

/-- The preferred representative comes from the candidate or the
absorbed duplicates. -/
theorem foldl_pick_mem (l : List SpecPoint) :
    ∀ w, l.foldl (fun w q => if betterPoint q w then q else w) w ∈ w :: l := by
  induction l with
  | nil => intro w; simp
  | cons q l ih =>
    intro w
    simp only [List.foldl_cons]
    by_cases h : betterPoint q w = true
    · rw [if_pos h]
      have := ih q
      simp only [List.mem_cons] at this ⊢
      tauto
    · rw [if_neg h]
      have := ih w
      simp only [List.mem_cons] at this ⊢
      tauto

/-- Members of `dedupInsert` come from the accumulator or the new
point. -/
theorem mem_dedupInsert (kept : List SpecPoint) (p x : SpecPoint)
    (h : x ∈ dedupInsert kept p) : x ∈ kept ∨ x = p := by
  unfold dedupInsert at h
  by_cases hd : (kept.filter fun q => isDup p q).isEmpty = true
  · rw [if_pos hd] at h
    rcases List.mem_append.mp h with h1 | h1
    · exact Or.inl h1
    · exact Or.inr (List.mem_singleton.mp h1)
  · rw [if_neg hd] at h
    rcases List.mem_append.mp h with h1 | h1
    · exact Or.inl (List.mem_filter.mp h1).1
    · have hw := List.mem_singleton.mp h1
      subst hw
      have hwin := foldl_pick_mem (kept.filter fun q => isDup p q) p
      rcases List.mem_cons.mp hwin with h2 | h2
      · exact Or.inr h2
      · exact Or.inl (List.mem_filter.mp h2).1

/-- Members of `dedup` come from the input. -/
theorem mem_dedup_aux (l : List SpecPoint) :
    ∀ (acc : List SpecPoint) (x : SpecPoint), x ∈ List.foldl dedupInsert acc l →
      x ∈ acc ∨ x ∈ l := by
  induction l with
  | nil => intro acc x h; exact Or.inl h
  | cons p l ih =>
    intro acc x h
    rcases ih (dedupInsert acc p) x h with h1 | h1
    · rcases mem_dedupInsert acc p x h1 with h2 | h2
      · exact Or.inl h2
      · exact Or.inr (by simp [h2])
    · exact Or.inr (by simp [h1])

/-- Members of `dedup` come from the input. -/
theorem mem_dedup (l : List SpecPoint) (x : SpecPoint) (h : x ∈ dedup l) : x ∈ l := by
  rcases mem_dedup_aux l [] x h with h1 | h1
  · exact absurd h1 (List.not_mem_nil x)
  · exact h1

/-- `dedupInsert` preserves pairwise non-duplication. -/
theorem dedupInsert_pairwise (kept : List SpecPoint) (p : SpecPoint)
    (h : kept.Pairwise fun a b => isDup a b = false) :
    (dedupInsert kept p).Pairwise fun a b => isDup a b = false := by
  unfold dedupInsert
  by_cases hd : (kept.filter fun q => isDup p q).isEmpty = true
  · rw [if_pos hd, List.pairwise_append]
    refine ⟨h, by simp, ?_⟩
    intro a ha b hb
    rw [List.mem_singleton] at hb
    rw [hb]
    have hnil : kept.filter (fun q => isDup p q) = [] := by
      cases hfe : kept.filter fun q => isDup p q
      · rfl
      · rw [hfe] at hd; simp [List.isEmpty] at hd
    have hnp : ∀ q ∈ kept, ¬(isDup p q = true) := by
      intro q hq hdup
      have : q ∈ kept.filter fun q => isDup p q := List.mem_filter.mpr ⟨hq, hdup⟩
      rw [hnil] at this
      exact absurd this (List.not_mem_nil q)
    have := hnp a ha
    rw [isDup_symm]
    simpa using this
  · rw [if_neg hd, List.pairwise_append]
    refine ⟨List.Pairwise.filter _ h, by simp, ?_⟩
    intro a ha b hb
    rw [List.mem_singleton] at hb
    rw [hb]
    have hamem := List.mem_filter.mp ha
    have hwin := foldl_pick_mem (kept.filter fun q => isDup p q) p
    rcases List.mem_cons.mp hwin with h2 | h2
    · rw [h2]
      have : (!isDup p a) = true := hamem.2
      rw [isDup_symm]
      simpa using this
    · have hwk := List.mem_filter.mp h2
      have hane : a ≠ List.foldl (fun w q => if betterPoint q w then q else w) p
          (kept.filter fun q => isDup p q) := by
        intro he
        have hdupw := hwk.2
        have : (!isDup p a) = true := hamem.2
        rw [he] at this
        rw [hdupw] at this
        simp at this
      exact pairwise_symm_forall (fun x y hxy => isDup_symm y x ▸ hxy) h a hamem.1 _ hwk.1 hane

/-- `dedup` produces a pairwise non-duplicating list. -/
theorem dedup_pairwise_aux (l : List SpecPoint) :
    ∀ acc : List SpecPoint, (acc.Pairwise fun a b => isDup a b = false) →
      (List.foldl dedupInsert acc l).Pairwise fun a b => isDup a b = false := by
  induction l with
  | nil => intro acc h; exact h
  | cons p l ih => intro acc h; exact ih _ (dedupInsert_pairwise acc p h)

/-- `dedup` produces a pairwise non-duplicating list. -/
theorem dedup_pairwise (l : List SpecPoint) :
    (dedup l).Pairwise fun a b => isDup a b = false :=
  dedup_pairwise_aux l [] (List.Pairwise.nil)

/-- On a pairwise non-duplicating list, `dedup` is the identity. -/
theorem dedup_eq_self_aux (l : List SpecPoint) :
    ∀ acc : List SpecPoint, ((acc ++ l).Pairwise fun a b => isDup a b = false) →
      List.foldl dedupInsert acc l = acc ++ l := by
  induction l with
  | nil => intro acc _; simp
  | cons p l ih =>
    intro acc h
    have hsplit := List.pairwise_append.mp h
    have hnp : ∀ q ∈ acc, isDup p q = false := by
      intro q hq
      have := hsplit.2.2 q hq p (by simp)
      rw [isDup_symm]
      exact this
    have hnil : acc.filter (fun q => isDup p q) = [] := by
      rw [List.filter_eq_nil_iff]
      intro q hq
      simp [hnp q hq]
    have hins : dedupInsert acc p = acc ++ [p] := by
      unfold dedupInsert
      rw [hnil]
      simp
    have hperm : (acc ++ [p]) ++ l = acc ++ p :: l := by
      rw [List.append_assoc]
      rfl
    rw [List.foldl_cons, hins, ih (acc ++ [p]) (by rw [hperm]; exact h), hperm]

/-- On a pairwise non-duplicating list, `dedup` is the identity. -/
theorem dedup_eq_self (l : List SpecPoint)
    (h : l.Pairwise fun a b => isDup a b = false) : dedup l = l :=
  dedup_eq_self_aux l [] (by simpa)

/-- Every merged point passed both authoritative filters. -/
theorem specMerge_elems (results : List ExecutionResult) (df dto : Option ℤ)
    (region : Option ((ℚ × ℚ) → Bool)) :
    ∀ x ∈ specMerge results df dto region,
      specDatePred df dto x = true ∧ specRegionPred region x = true := by
  intro x hx
  dsimp only [specMerge] at hx
  rw [List.mem_insertionSort] at hx
  have hx2 := mem_dedup _ x hx
  have hreg := (List.mem_filter.mp hx2).2
  have hx3 := (List.mem_filter.mp hx2).1
  have hdat := (List.mem_filter.mp hx3).2
  exact ⟨hdat, hreg⟩

/-- No two merged points are duplicates of one another. -/
theorem specMerge_pairwise (results : List ExecutionResult) (df dto : Option ℤ)
    (region : Option ((ℚ × ℚ) → Bool)) :
    (specMerge results df dto region).Pairwise fun a b => isDup a b = false := by
  dsimp only [specMerge]
  have hperm := List.perm_insertionSort ptLE
    (dedup ((((results.map fun r => if r.errored then [] else r.locations).flatten).filter
      (specDatePred df dto)).filter (specRegionPred region)))
  exact (hperm.pairwise_iff fun hxy => isDup_symm _ _ ▸ hxy).mpr (dedup_pairwise _)

/-- The merged output is sorted by the spec's order. -/
theorem specMerge_sorted (results : List ExecutionResult) (df dto : Option ℤ)
    (region : Option ((ℚ × ℚ) → Bool)) :
    List.Sorted ptLE (specMerge results df dto region) := by
  dsimp only [specMerge]
  exact List.sorted_insertionSort ptLE _

/-- C8: `merge` is idempotent — feeding its output back as a single
new `ExecutionResult`, with the same date and radius filters, returns
exactly the same list: no further deduplication, removal or
reordering. -/
theorem claim_C8 (results : List ExecutionResult) (df dto : Option ℤ)
    (region : Option ((ℚ × ℚ) → Bool)) :
    specMerge [⟨"merged", specMerge results df dto region, false⟩] df dto region =
      specMerge results df dto region := by
  have h1 : (specMerge results df dto region).filter (specDatePred df dto) =
      specMerge results df dto region :=
    List.filter_eq_self.mpr fun x hx => (specMerge_elems results df dto region x hx).1
  have h2 : (specMerge results df dto region).filter (specRegionPred region) =
      specMerge results df dto region :=
    List.filter_eq_self.mpr fun x hx => (specMerge_elems results df dto region x hx).2
  have h3 : dedup (specMerge results df dto region) = specMerge results df dto region :=
    dedup_eq_self _ (specMerge_pairwise results df dto region)
  have h4 : List.insertionSort ptLE (specMerge results df dto region) =
      specMerge results df dto region :=
    (specMerge_sorted results df dto region).insertionSort_eq
  show List.insertionSort ptLE (dedup ((((List.map
      (fun r => if r.errored then [] else r.locations)
      ([⟨"merged", specMerge results df dto region, false⟩] : List ExecutionResult)).flatten).filter
      (specDatePred df dto)).filter (specRegionPred region))) =
    specMerge results df dto region
  have h0 : (List.map (fun r => if r.errored then [] else r.locations)
      ([⟨"merged", specMerge results df dto region, false⟩] : List ExecutionResult)).flatten =
      specMerge results df dto region := by simp
  rw [h0, h1, h2, h3, h4]

/-! ## C4: the timestamp strategy order

The Facebook location-history extractor attempts the three `strptime`
patterns before the general `fromisoformat` parse, while the claim
lists ISO-8601 before the patterns.  The two chains agree wherever
both match, so the extractor's result function equals the
claimed-order chain; the proof goes through the shared decomposition
`coreParse`. -/

/-- `munch` splits its input: the input is the run plus the rest, the
run is all digits, and the rest starts with a non-digit. -/
theorem munch_sound (s : List Char) :
    s = (munch s).1 ++ (munch s).2 ∧ (∀ c ∈ (munch s).1, isDig c = true) ∧
      ∀ c, (munch s).2.head? = some c → isDig c = false := by
  induction s with
  | nil => exact ⟨rfl, by simp [munch], by simp [munch]⟩
  | cons ch s ih =>
    by_cases h : isDig ch = true
    · refine ⟨?_, ?_, ?_⟩
      · simp only [munch, h, if_true]
        exact congrArg (ch :: ·) ih.1
      · simp only [munch, h, if_true]
        intro c hc
        rcases List.mem_cons.mp hc with rfl | hc
        · exact h
        · exact ih.2.1 c hc
      · simp only [munch, h, if_true]
        exact ih.2.2
    · have hf : isDig ch = false := by simpa using h
      refine ⟨?_, ?_, ?_⟩ <;> simp [munch, hf]

/-- `munch` recovers an all-digit run followed by a rest that does not
begin with a digit. -/
theorem munch_append (t r : List Char) (ht : ∀ ch ∈ t, isDig ch = true)
    (hr : ∀ ch, r.head? = some ch → isDig ch = false) : munch (t ++ r) = (t, r) := by
  induction t with
  | nil =>
    cases r with
    | nil => rfl
    | cons ch r' =>
      have := hr ch rfl
      simp [munch, this]
  | cons ch t' ih =>
    have hch := ht ch (by simp)
    have ht' : ∀ x ∈ t', isDig x = true := fun x hx => ht x (by simp [hx])
    simp [munch, hch, ih ht']

/-- Reassemble the time part of a decomposition. -/
def renderTime (t : TimeRaw) : List Char :=
  t.sep :: (t.hs ++ ':' :: (t.mis ++
    match t.ssPart with
    | none => []
    | some ss => ':' :: ss))

/-- Reassemble a decomposition into the string it came from. -/
def renderCore (c : RawStamp) : List Char :=
  c.ys ++ '-' :: (c.ms ++ '-' :: (c.ds ++
    (match c.timePart with
     | none => []
     | some t => renderTime t) ++ c.rest))

/-- The well-formedness facts `coreParse` guarantees about its output:
nonempty all-digit runs and a non-digit separator. -/
structure GoodCore (c : RawStamp) : Prop where
  ysne : c.ys ≠ []
  ysdig : ∀ ch ∈ c.ys, isDig ch = true
  msne : c.ms ≠ []
  msdig : ∀ ch ∈ c.ms, isDig ch = true
  dsne : c.ds ≠ []
  dsdig : ∀ ch ∈ c.ds, isDig ch = true
  timeOk : ∀ tr, c.timePart = some tr →
    isDig tr.sep = false ∧ tr.hs ≠ [] ∧ (∀ ch ∈ tr.hs, isDig ch = true) ∧
      tr.mis ≠ [] ∧ (∀ ch ∈ tr.mis, isDig ch = true) ∧
      ∀ ss, tr.ssPart = some ss → ss ≠ [] ∧ ∀ ch ∈ ss, isDig ch = true

/-- A digit is not `Z` (nor a separator). -/
theorem isDig_ne_z {ch : Char} (h : isDig ch = true) : ch ≠ 'Z' := by
  intro he
  rw [he] at h
  simp [isDig, Char.isDigit] at h

/-- A list with `isEmpty` false is not nil. -/
theorem ne_nil_of_isEmpty_ne {l : List Char} (h : ¬ l.isEmpty = true) : l ≠ [] := by
  intro hnil
  rw [hnil] at h
  exact h rfl

/-- `munch`'s result as fresh names. -/
theorem munch_split (s : List Char) :
    ∃ t r, munch s = (t, r) ∧ s = t ++ r ∧ (∀ c ∈ t, isDig c = true) ∧
      ∀ c, r.head? = some c → isDig c = false :=
  ⟨(munch s).1, (munch s).2, rfl, (munch_sound s).1, (munch_sound s).2.1, (munch_sound s).2.2⟩

/-- What `coreParse` accepts is exactly the reassembly of its output,
with well-formed runs. -/
theorem coreParse_sound (s : List Char) (c : RawStamp) (h : coreParse s = some c) :
    s = renderCore c ∧ GoodCore c := by
  obtain ⟨ys, r1, hm1, he1, hd1, hh1⟩ := munch_split s
  unfold coreParse at h
  rw [hm1] at h
  dsimp only at h
  split at h
  case isTrue => simp at h
  case isFalse h1ne =>
  split at h
  case h_2 => simp at h
  case h_1 r2 =>
  obtain ⟨ms, r3, hm2, he2, hd2, hh2⟩ := munch_split r2
  rw [hm2] at h
  dsimp only at h
  split at h
  case isTrue => simp at h
  case isFalse h2ne =>
  split at h
  case h_2 => simp at h
  case h_1 r4 =>
  obtain ⟨ds, r5, hm3, he3, hd3, hh3⟩ := munch_split r4
  rw [hm3] at h
  dsimp only at h
  split at h
  case isTrue => simp at h
  case isFalse h3ne =>
  split at h
  case h_1 =>
    injection h with h'
    subst h'
    constructor
    · rw [he3] at he2
      rw [he2] at he1
      rw [he1]
      simp [renderCore, renderTime]
    · refine ⟨?_, hd1, ?_, hd2, ?_, hd3, ?_⟩
      · exact ne_nil_of_isEmpty_ne h1ne
      · exact ne_nil_of_isEmpty_ne h2ne
      · exact ne_nil_of_isEmpty_ne h3ne
      · intro tr htr; exact absurd htr (by simp)
  case h_2 sep r6 =>
  obtain ⟨hrs, r7, hm4, he4, hd4, hh4⟩ := munch_split r6
  rw [hm4] at h
  dsimp only at h
  split at h
  case isTrue => simp at h
  case isFalse h4ne =>
  split at h
  case h_2 => simp at h
  case h_1 r8 =>
  obtain ⟨mis, r9, hm5, he5, hd5, hh5⟩ := munch_split r8
  rw [hm5] at h
  dsimp only at h
  split at h
  case isTrue => simp at h
  case isFalse h5ne =>
  split at h
  case h_1 r10 =>
    obtain ⟨sscs, r11, hm6, he6, hd6, hh6⟩ := munch_split r10
    rw [hm6] at h
    dsimp only at h
    split at h
    case isTrue => simp at h
    case isFalse h6ne =>
    injection h with h'
    subst h'
    constructor
    · rw [he6] at he5
      rw [he5] at he4
      rw [he4] at he3
      rw [he3] at he2
      rw [he2] at he1
      rw [he1]
      simp [renderCore, renderTime, List.append_assoc]
    · refine ⟨?_, hd1, ?_, hd2, ?_, hd3, ?_⟩
      · exact ne_nil_of_isEmpty_ne h1ne
      · exact ne_nil_of_isEmpty_ne h2ne
      · exact ne_nil_of_isEmpty_ne h3ne
      · intro tr htr
        injection htr with htr'
        subst htr'
        refine ⟨hh3 sep rfl, ?_, hd4, ?_, hd5, ?_⟩
        · exact ne_nil_of_isEmpty_ne h4ne
        · exact ne_nil_of_isEmpty_ne h5ne
        · intro ss' hss'
          injection hss' with hss''
          subst hss''
          exact ⟨ne_nil_of_isEmpty_ne h6ne, hd6⟩
  case h_2 =>
    injection h with h'
    subst h'
    constructor
    · rw [he5] at he4
      rw [he4] at he3
      rw [he3] at he2
      rw [he2] at he1
      rw [he1]
      simp [renderCore, renderTime, List.append_assoc]
    · refine ⟨?_, hd1, ?_, hd2, ?_, hd3, ?_⟩
      · exact ne_nil_of_isEmpty_ne h1ne
      · exact ne_nil_of_isEmpty_ne h2ne
      · exact ne_nil_of_isEmpty_ne h3ne
      · intro tr htr
        injection htr with htr'
        subst htr'
        refine ⟨hh3 sep rfl, ?_, hd4, ?_, hd5, ?_⟩
        · exact ne_nil_of_isEmpty_ne h4ne
        · exact ne_nil_of_isEmpty_ne h5ne
        · intro ss' hss'
          exact absurd hss' (by simp)

/-- A nonempty list has `isEmpty` false. -/
theorem isEmpty_false_of_ne {l : List Char} (h : l ≠ []) : l.isEmpty = false := by
  cases l with
  | nil => exact absurd rfl h
  | cons a l => rfl

/-- `coreParse` recovers a well-formed full decomposition from its
rendering. -/
theorem coreParse_render (ys ms ds hrs mis ss rest : List Char) (sep : Char)
    (hysne : ys ≠ []) (hysd : ∀ ch ∈ ys, isDig ch = true)
    (hmsne : ms ≠ []) (hmsd : ∀ ch ∈ ms, isDig ch = true)
    (hdsne : ds ≠ []) (hdsd : ∀ ch ∈ ds, isDig ch = true)
    (hsep : isDig sep = false)
    (hhne : hrs ≠ []) (hhd : ∀ ch ∈ hrs, isDig ch = true)
    (hmine : mis ≠ []) (hmid : ∀ ch ∈ mis, isDig ch = true)
    (hssne : ss ≠ []) (hssd : ∀ ch ∈ ss, isDig ch = true)
    (hrest : ∀ ch, rest.head? = some ch → isDig ch = false) :
    coreParse (ys ++ '-' :: (ms ++ '-' :: (ds ++ sep ::
        (hrs ++ ':' :: (mis ++ ':' :: (ss ++ rest)))))) =
      some ⟨ys, ms, ds, some ⟨sep, hrs, mis, some ss⟩, rest⟩ := by
  have hys := munch_append ys ('-' :: (ms ++ '-' :: (ds ++ sep ::
      (hrs ++ ':' :: (mis ++ ':' :: (ss ++ rest)))))) hysd
    (by intro ch hch; injection hch with h1; rw [h1.symm]; decide)
  have hms := munch_append ms ('-' :: (ds ++ sep ::
      (hrs ++ ':' :: (mis ++ ':' :: (ss ++ rest))))) hmsd
    (by intro ch hch; injection hch with h1; rw [h1.symm]; decide)
  have hds := munch_append ds (sep :: (hrs ++ ':' :: (mis ++ ':' :: (ss ++ rest)))) hdsd
    (by intro ch hch; injection hch with h1; rw [h1.symm]; exact hsep)
  have hhr := munch_append hrs (':' :: (mis ++ ':' :: (ss ++ rest))) hhd
    (by intro ch hch; injection hch with h1; rw [h1.symm]; decide)
  have hmi := munch_append mis (':' :: (ss ++ rest)) hmid
    (by intro ch hch; injection hch with h1; rw [h1.symm]; decide)
  have hsse := munch_append ss rest hssd hrest
  simp only [coreParse, hys, hms, hds, hhr, hmi, hsse,
    isEmpty_false_of_ne hysne, isEmpty_false_of_ne hmsne, isEmpty_false_of_ne hdsne,
    isEmpty_false_of_ne hhne, isEmpty_false_of_ne hmine, isEmpty_false_of_ne hssne,
    Bool.false_eq_true, if_false]

/-- A list with `isEmpty` true is nil. -/
theorem nil_of_isEmpty {l : List Char} (h : l.isEmpty = true) : l = [] := by
  cases l with
  | nil => rfl
  | cons a l => simp [List.isEmpty] at h

/-- What a successful `strptime` format run looks like: a full time
part with seconds, the wanted separator, fields read off the digit
runs, and the offset from `%z` (or an exhausted string without it). -/
theorem strptimeYmdHms_out (sep : Char) (wtz : Bool) (c : RawStamp) (t : DateTime)
    (h : strptimeYmdHms sep wtz c = some t) :
    ∃ tr ss tz, c.timePart = some tr ∧ tr.ssPart = some ss ∧ tr.sep = sep ∧
      t = ⟨digitsToNat c.ys, digitsToNat c.ms, digitsToNat c.ds,
        digitsToNat tr.hs, digitsToNat tr.mis, digitsToNat ss, 0, tz⟩ ∧
      ((wtz = true ∧ parseTzTok c.rest = some tz) ∨
        (wtz = false ∧ c.rest = [] ∧ tz = none)) := by
  cases wtz
  case true =>
    unfold strptimeYmdHms at h
    split at h
    next => simp at h
    next tr htp =>
    split at h
    next => simp at h
    next ss hss =>
    try dsimp only at h
    split at h
    next hw =>
      split at h
      next hv =>
        split at h
        next =>
          split at h
          next tz htz =>
            injection h with h1
            have hsep : tr.sep = sep := by
              simp only [Bool.and_eq_true, decide_eq_true_eq] at hw
              exact hw.1.1.1.1.1.1
            exact ⟨tr, ss, tz, htp, hss, hsep, h1.symm, Or.inl ⟨rfl, htz⟩⟩
          next => simp at h
        next hft => simp at hft
      next => simp at h
    next => simp at h
  case false =>
    unfold strptimeYmdHms at h
    split at h
    next => simp at h
    next tr htp =>
    split at h
    next => simp at h
    next ss hss =>
    try dsimp only at h
    split at h
    next hw =>
      split at h
      next hv =>
        split at h
        next hft => simp at hft
        next =>
          split at h
          next hE =>
            injection h with h1
            have hsep : tr.sep = sep := by
              simp only [Bool.and_eq_true, decide_eq_true_eq] at hw
              exact hw.1.1.1.1.1.1
            exact ⟨tr, ss, none, htp, hss, hsep, h1.symm,
              Or.inr ⟨rfl, nil_of_isEmpty hE, rfl⟩⟩
          next => simp at h
      next => simp at h
    next => simp at h

/-- What a successful `fromisoformat` run looks like: date only, or a
time part without seconds plus an offset, or a full time part with
seconds, fraction and offset. -/
theorem isoFromCore_out (c : RawStamp) (u : DateTime) (h : isoFromCore c = some u) :
    (c.timePart = none ∧
      u = ⟨digitsToNat c.ys, digitsToNat c.ms, digitsToNat c.ds, 0, 0, 0, 0, none⟩) ∨
    (∃ tr, c.timePart = some tr ∧
      ((tr.ssPart = none ∧ ∃ tz, parseTzTok c.rest = some tz ∧
        u = ⟨digitsToNat c.ys, digitsToNat c.ms, digitsToNat c.ds,
          digitsToNat tr.hs, digitsToNat tr.mis, 0, 0, tz⟩) ∨
      (∃ ss us rest2 tz, tr.ssPart = some ss ∧ fracSplit c.rest = some (us, rest2) ∧
        parseTzTok rest2 = some tz ∧
        u = ⟨digitsToNat c.ys, digitsToNat c.ms, digitsToNat c.ds,
          digitsToNat tr.hs, digitsToNat tr.mis, digitsToNat ss, us, tz⟩))) := by
  unfold isoFromCore at h
  split at h
  next hw =>
    try dsimp only at h
    split at h
    next hv =>
      split at h
      next htp =>
        split at h
        next hE =>
          injection h with h1
          exact Or.inl ⟨htp, h1.symm⟩
        next => simp at h
      next tr htp =>
        split at h
        next hw2 =>
          try dsimp only at h
          split at h
          next hssn =>
            split at h
            next hv2 =>
              split at h
              next tz htz =>
                injection h with h1
                exact Or.inr ⟨tr, htp, Or.inl ⟨hssn, tz, htz, h1.symm⟩⟩
              next => simp at h
            next => simp at h
          next ss hss =>
            split at h
            next hw3 =>
              try dsimp only at h
              split at h
              next hv3 =>
                split at h
                next => simp at h
                next us rest2 hfrac =>
                  split at h
                  next tz htz =>
                    injection h with h1
                    exact Or.inr ⟨tr, htp,
                      Or.inr ⟨ss, us, rest2, tz, hss, hfrac, htz, h1.symm⟩⟩
                  next => simp at h
              next => simp at h
            next => simp at h
        next => simp at h
    next => simp at h
  next => simp at h

/-- `replaceZ` leaves a `Z`-free prefix untouched. -/
theorem replaceZ_append_noZ (a b : List Char) (ha : ∀ ch ∈ a, ch ≠ 'Z') :
    replaceZ (a ++ b) = a ++ replaceZ b := by
  induction a with
  | nil => rfl
  | cons ch a ih =>
    have h1 : ch ≠ 'Z' := ha ch (by simp)
    have h2 : ∀ x ∈ a, x ≠ 'Z' := fun x hx => ha x (by simp [hx])
    simp [replaceZ, h1, ih h2]

/-- A `Z`-free string is unchanged by the `Z` replacement. -/
theorem replaceZ_noZ (a : List Char) (ha : ∀ ch ∈ a, ch ≠ 'Z') : replaceZ a = a := by
  have h := replaceZ_append_noZ a [] ha
  simpa [replaceZ] using h

/-- A parsed signed offset begins with its sign and contains no `Z`. -/
theorem parseOff_shape (r : List Char) (off : ℤ) (h : parseOff r = some off) :
    ∃ sg r2, r = sg :: r2 ∧ (sg = '+' ∨ sg = '-') ∧ ∀ ch ∈ r, ch ≠ 'Z' := by
  unfold parseOff at h
  split at h
  next sg rest2 =>
    split at h
    next hsg =>
      try dsimp only at h
      split at h
      next e1 e2 e3 e4 =>
        split at h
        next hcond =>
          simp only [Bool.and_eq_true] at hcond
          refine ⟨sg, [e1, e2, ':', e3, e4], rfl, hsg, ?_⟩
          intro ch hch
          simp only [List.mem_cons, List.not_mem_nil, or_false] at hch
          rcases hch with rfl | rfl | rfl | rfl | rfl | rfl
          · rcases hsg with rfl | rfl <;> decide
          · exact isDig_ne_z hcond.1.1.1.1.1
          · exact isDig_ne_z hcond.1.1.1.1.2
          · decide
          · exact isDig_ne_z hcond.1.1.1.2
          · exact isDig_ne_z hcond.1.1.2
        next => simp at h
      next e1 e2 e3 e4 =>
        split at h
        next hcond =>
          simp only [Bool.and_eq_true] at hcond
          refine ⟨sg, [e1, e2, e3, e4], rfl, hsg, ?_⟩
          intro ch hch
          simp only [List.mem_cons, List.not_mem_nil, or_false] at hch
          rcases hch with rfl | rfl | rfl | rfl | rfl
          · rcases hsg with rfl | rfl <;> decide
          · exact isDig_ne_z hcond.1.1.1.1.1
          · exact isDig_ne_z hcond.1.1.1.1.2
          · exact isDig_ne_z hcond.1.1.1.2
          · exact isDig_ne_z hcond.1.1.2
        next => simp at h
      next e1 e2 =>
        split at h
        next hcond =>
          simp only [Bool.and_eq_true] at hcond
          refine ⟨sg, [e1, e2], rfl, hsg, ?_⟩
          intro ch hch
          simp only [List.mem_cons, List.not_mem_nil, or_false] at hch
          rcases hch with rfl | rfl | rfl
          · rcases hsg with rfl | rfl <;> decide
          · exact isDig_ne_z hcond.1.1
          · exact isDig_ne_z hcond.1.2
        next => simp at h
      next => simp at h
    next => simp at h
  next => simp at h

/-- What `parseTzTok` accepts: the empty remainder (naive), the literal
`Z`, or a sign-led offset with no `Z` anywhere. -/
theorem parseTzTok_shape (r : List Char) (tz : Option ℤ) (h : parseTzTok r = some tz) :
    (r = [] ∧ tz = none) ∨ (r = ['Z'] ∧ tz = some 0) ∨
      (∃ sg r2, r = sg :: r2 ∧ (sg = '+' ∨ sg = '-') ∧ ∀ ch ∈ r, ch ≠ 'Z') := by
  unfold parseTzTok at h
  split at h
  next =>
    injection h with h1
    exact Or.inl ⟨rfl, h1.symm⟩
  next =>
    injection h with h1
    exact Or.inr (Or.inl ⟨rfl, h1.symm⟩)
  next =>
    cases hoff : parseOff r with
    | none => rw [hoff] at h; simp at h
    | some off => exact Or.inr (Or.inr (parseOff_shape r off hoff))

/-- A remainder `parseTzTok` accepts starts with no fraction dot, so
`fracSplit` passes it through whole. -/
theorem fracSplit_of_tz (r : List Char) (tz : Option ℤ) (h : parseTzTok r = some tz) :
    fracSplit r = some (0, r) := by
  rcases parseTzTok_shape r tz h with ⟨hre, _⟩ | ⟨hre, _⟩ | ⟨sg, r2, hre, hsg, _⟩
  · rw [hre]
    rfl
  · rw [hre]
    rfl
  · rw [hre]
    rcases hsg with rfl | rfl
    · rfl
    · rfl

/-- On a rendered full decomposition (digits, `-`, `:`, a non-`Z`
separator), the `Z` replacement only touches the remainder. -/
theorem replaceZ_renderCore (c : RawStamp) (tr : TimeRaw) (ss : List Char)
    (g : GoodCore c) (htp : c.timePart = some tr) (hss : tr.ssPart = some ss)
    (hsepz : tr.sep ≠ 'Z') :
    replaceZ (renderCore c) = renderCore ⟨c.ys, c.ms, c.ds, c.timePart, replaceZ c.rest⟩ := by
  obtain ⟨hsepdig, hhne, hhd, hmine, hmid, hssf⟩ := g.timeOk tr htp
  obtain ⟨hssne, hssd⟩ := hssf ss hss
  have hfront : ∀ ch ∈ (c.ys ++ '-' :: (c.ms ++ '-' :: (c.ds ++ tr.sep ::
      (tr.hs ++ ':' :: (tr.mis ++ ':' :: ss))))), ch ≠ 'Z' := by
    intro ch hch
    simp only [List.mem_append, List.mem_cons] at hch
    rcases hch with h | rfl | h | rfl | h | rfl | h | rfl | h | rfl | h
    · exact isDig_ne_z (g.ysdig ch h)
    · decide
    · exact isDig_ne_z (g.msdig ch h)
    · decide
    · exact isDig_ne_z (g.dsdig ch h)
    · exact hsepz
    · exact isDig_ne_z (hhd ch h)
    · decide
    · exact isDig_ne_z (hmid ch h)
    · decide
    · exact isDig_ne_z (hssd ch h)
  have h1 : renderCore c = (c.ys ++ '-' :: (c.ms ++ '-' :: (c.ds ++ tr.sep ::
      (tr.hs ++ ':' :: (tr.mis ++ ':' :: ss))))) ++ c.rest := by
    simp [renderCore, renderTime, htp, hss, List.append_assoc]
  rw [h1, replaceZ_append_noZ _ _ hfront]
  simp [renderCore, renderTime, htp, hss, List.append_assoc]

/-- First success wins in the three-format `strptime` chain. -/
theorem chainCore_cases (c : RawStamp) (u : DateTime) (h : strptimeChainCore c = some u) :
    strptimeYmdHms 'T' true c = some u ∨ strptimeYmdHms 'T' false c = some u ∨
      strptimeYmdHms ' ' false c = some u := by
  unfold strptimeChainCore at h
  cases h1 : strptimeYmdHms 'T' true c with
  | some t =>
    rw [h1] at h
    simp only [Option.orElse] at h
    exact Or.inl h
  | none =>
    rw [h1] at h
    simp only [Option.orElse] at h
    cases h2 : strptimeYmdHms 'T' false c with
    | some t =>
      rw [h2] at h
      simp only [Option.orElse] at h
      exact Or.inr (Or.inl h)
    | none =>
      rw [h2] at h
      simp only [Option.orElse] at h
      exact Or.inr (Or.inr h)

/-- On the same decomposition, a successful `strptime` run and a
successful `fromisoformat` run produce the same value. -/
theorem agree_same_core (sep : Char) (wtz : Bool) (c : RawStamp) (u v : DateTime)
    (hs : strptimeYmdHms sep wtz c = some u) (hi : isoFromCore c = some v) : u = v := by
  obtain ⟨tr, ss, tz, htp, hss, hsepe, hu, htzc⟩ := strptimeYmdHms_out sep wtz c u hs
  have htzr : parseTzTok c.rest = some tz := by
    rcases htzc with ⟨_, h2⟩ | ⟨_, hre, htzn⟩
    · exact h2
    · rw [hre, htzn]
      rfl
  rcases isoFromCore_out c v hi with ⟨hnone, _⟩ | ⟨tr2, htp2, hrest⟩
  · rw [htp] at hnone
    exact absurd hnone (by simp)
  · rw [htp] at htp2
    injection htp2 with htr2
    subst htr2
    rcases hrest with ⟨hssn, _⟩ | ⟨ss2, us, rest2, tz2, hss2, hfrac, htz2, hv⟩
    · rw [hss] at hssn
      exact absurd hssn (by simp)
    · rw [hss] at hss2
      injection hss2 with hss2e
      subst hss2e
      rw [fracSplit_of_tz c.rest tz htzr] at hfrac
      injection hfrac with hfrac2
      injection hfrac2 with hus hrest2
      subst hus
      rw [← hrest2, htzr] at htz2
      injection htz2 with htz2e
      subst htz2e
      rw [hu, hv]

/-- One successful `strptime` format forces agreement with whatever the
`fromisoformat` branch (run on the `Z`-replaced string) returns. -/
theorem chain_agree_aux (l : List Char) (c : RawStamp) (sep : Char) (wtz : Bool)
    (u v : DateTime) (hcp : coreParse l = some c) (hsep : sep ≠ 'Z')
    (hone : strptimeYmdHms sep wtz c = some u) (hic : isoZParse l = some v) : u = v := by
  obtain ⟨hl, g⟩ := coreParse_sound l c hcp
  obtain ⟨tr, ss, tz, htp, hss, hsepe, hu, htzc⟩ := strptimeYmdHms_out sep wtz c u hone
  have hsepz : tr.sep ≠ 'Z' := by rw [hsepe]; exact hsep
  have htzr : parseTzTok c.rest = some tz := by
    rcases htzc with ⟨_, h2⟩ | ⟨_, hre, htzn⟩
    · exact h2
    · rw [hre, htzn]
      rfl
  have hstep := replaceZ_renderCore c tr ss g htp hss hsepz
  rcases parseTzTok_shape c.rest tz htzr with ⟨hre, htzn⟩ | ⟨hre, htzz⟩ | ⟨sg, r2, hre, hsg, hnoZ⟩
  · -- empty remainder: replaceZ is the identity on the whole string
    have hid : replaceZ l = l := by
      rw [hl, hstep, hre]
      rw [show (replaceZ ([] : List Char)) = [] from rfl, ← hre]
    unfold isoZParse at hic
    rw [hid, hcp, Option.some_bind] at hic
    exact agree_same_core sep wtz c u v hone hic
  · -- remainder `Z`: the replacement turns it into `+00:00`
    have hrz : replaceZ c.rest = ['+', '0', '0', ':', '0', '0'] := by
      rw [hre]
      rfl
    obtain ⟨hsepdig, hhne, hhd, hmine, hmid, hssf⟩ := g.timeOk tr htp
    obtain ⟨hssne, hssd⟩ := hssf ss hss
    have hcp2 : coreParse (renderCore ⟨c.ys, c.ms, c.ds, c.timePart,
        ['+', '0', '0', ':', '0', '0']⟩) =
        some ⟨c.ys, c.ms, c.ds, some ⟨tr.sep, tr.hs, tr.mis, some ss⟩,
          ['+', '0', '0', ':', '0', '0']⟩ := by
      have hr := coreParse_render c.ys c.ms c.ds tr.hs tr.mis ss
        ['+', '0', '0', ':', '0', '0'] tr.sep
        g.ysne g.ysdig g.msne g.msdig g.dsne g.dsdig hsepdig hhne hhd hmine hmid hssne hssd
        (by intro ch hch; injection hch with he; rw [← he]; decide)
      have hshape : renderCore ⟨c.ys, c.ms, c.ds, c.timePart, ['+', '0', '0', ':', '0', '0']⟩ =
          c.ys ++ '-' :: (c.ms ++ '-' :: (c.ds ++ tr.sep ::
            (tr.hs ++ ':' :: (tr.mis ++ ':' :: (ss ++ ['+', '0', '0', ':', '0', '0']))))) := by
        simp [renderCore, renderTime, htp, hss, List.append_assoc]
      rw [hshape]
      exact hr
    unfold isoZParse at hic
    rw [hl, hstep, hrz, hcp2, Option.some_bind] at hic
    rcases isoFromCore_out _ v hic with ⟨hnone, _⟩ | ⟨tr2, htp2, hrest⟩
    · exact absurd hnone (by simp)
    · injection htp2 with htr2
      rcases hrest with ⟨hssn, _⟩ | ⟨ss2, us, rest2, tz2, hss2, hfrac, htz2, hv⟩
      · rw [← htr2] at hssn
        exact absurd hssn (by simp)
      · rw [← htr2] at hss2
        have hss2e : ss = ss2 := by injection hss2
        subst hss2e
        have hfrval : fracSplit (['+', '0', '0', ':', '0', '0'] : List Char) =
            some (0, ['+', '0', '0', ':', '0', '0']) := rfl
        rw [hfrval] at hfrac
        injection hfrac with hfrac2
        injection hfrac2 with hus hrest2
        subst hus
        rw [← hrest2] at htz2
        have htzval : parseTzTok (['+', '0', '0', ':', '0', '0'] : List Char) =
            some (some 0) := rfl
        rw [htzval] at htz2
        injection htz2 with htz2e
        subst htz2e
        rw [hu, hv, htzz, ← htr2]
  · -- sign-led remainder: no `Z` anywhere, replaceZ is the identity
    have hrr : replaceZ c.rest = c.rest := by
      rw [hre]
      exact replaceZ_noZ _ (hre ▸ hnoZ)
    have hid : replaceZ l = l := by
      rw [hl, hstep, hrr]
    unfold isoZParse at hic
    rw [hid, hcp, Option.some_bind] at hic
    exact agree_same_core sep wtz c u v hone hic

/-- Wherever the `strptime` chain and the `fromisoformat` fallback both
succeed on the same string, they return the same value. -/
theorem chain_agree (l : List Char) (u v : DateTime)
    (hsc : strptimeChain l = some u) (hic : isoZParse l = some v) : u = v := by
  unfold strptimeChain at hsc
  cases hcp : coreParse l with
  | none =>
    rw [hcp] at hsc
    simp at hsc
  | some c =>
    rw [hcp, Option.some_bind] at hsc
    rcases chainCore_cases c u hsc with h | h | h
    · exact chain_agree_aux l c 'T' true u v hcp (by decide) h hic
    · exact chain_agree_aux l c 'T' false u v hcp (by decide) h hic
    · exact chain_agree_aux l c ' ' false u v hcp (by decide) h hic

/-- The two strategy orders — source (`strptime` formats first) and
claimed (ISO first) — give the same result on every string. -/
theorem parseTimeStr_order (s : String) : parseTimeStrFB s = parseTimeStrSpecOrder s := by
  unfold parseTimeStrFB parseTimeStrSpecOrder
  cases ha : strptimeChain s.data with
  | none =>
    cases hb : isoZParse s.data with
    | none => simp [Option.orElse, ha, hb]
    | some v => simp [Option.orElse, ha, hb]
  | some u =>
    cases hb : isoZParse s.data with
    | none => simp [Option.orElse, ha, hb]
    | some v =>
      simp only [Option.orElse, ha, hb]
      exact congrArg some (chain_agree s.data u v ha hb)

/-- The candidate-key loop is insensitive to the string-strategy
order. -/
theorem extractGo_order (item : Json) (ks : List String) :
    extractTimestampFBGo item ks = extractTimestampFBSpecGo item ks := by
  induction ks with
  | nil => rfl
  | cons k ks ih =>
    unfold extractTimestampFBGo extractTimestampFBSpecGo
    cases hk : item.hasKey k with
    | false =>
      simp only [hk, Bool.false_eq_true, if_false]
      exact ih
    | true =>
      simp only [hk, if_true]
      cases hv : item.get k with
      | int z =>
        dsimp only
        cases epochToDateTime z with
        | ok t => rfl
        | error e => exact ih
      | bool b =>
        dsimp only
        cases epochToDateTime (if b then 1 else 0) with
        | ok t => rfl
        | error e => exact ih
      | str s => exact parseTimeStr_order s
      | null => rfl
      | float q => rfl
      | arr l => rfl
      | obj o => rfl

/-- C4 (corrected).  The Facebook location-history extractor tries the
fixed `strptime` patterns before the ISO-8601 parse — the reverse of
the claimed order — but the two orders are extensionally equal: for
every input node its timestamp extraction returns exactly what the
claimed-order extractor (epoch integer, then ISO-8601 with and
without a trailing `Z`, then the fixed pattern set, first match wins)
returns.  The Instagram extractor, by contrast, has no pattern
stage at all (see the counterexample). -/
theorem claim_C4 (item : Json) : extractTimestampFB item = extractTimestampFBSpec item :=
  extractGo_order item ["timestamp", "time", "date", "creation_timestamp"]

/-- C4 counterexample to the claim as written: on a record whose
`taken_at` is the string `2024-1-1T10:00:00`, the claimed strategy
list would succeed (the pattern `%Y-%m-%dT%H:%M:%S` accepts
single-digit month and day), but the Instagram extractor — which
tries no date-time pattern set after ISO-8601 — extracts no
timestamp. -/
theorem claim_C4_counterexample :
    extractTimestampIG (Json.obj [("taken_at", Json.str "2024-1-1T10:00:00")]) =
        .ok none ∧
      parseTimeStrSpecOrder "2024-1-1T10:00:00" =
        some ⟨2024, 1, 1, 10, 0, 0, 0, none⟩ := by
  constructor
  · rfl
  · rfl
